import Mathlib

/-!
Verification development for the core mechanics of the `pacing` game engine
(`src/mechanics.rs`, `crates/pacing_core/src/{lingo,rand}.rs`, `src/format.rs`).

Modelling conventions:
* Rust `f32` progress values (`Bar`) are modelled as exact rationals `ℚ`;
  every value the engine ever feeds a bar (milliseconds / 1000) is exactly
  representable, and no claim depends on rounding.
* Rust `isize`/`i32` are modelled as `Int`, `usize` as `Nat`.  An `as usize`
  cast is `asUsize` (wrap modulo 2^64), and `isize` division is `Int.tdiv`
  (truncation toward zero), matching Rust semantics.
* The PRNG (`Rand`, a facade over the external `fastrand` crate) is modelled
  as a pure stream of draws: a function `Nat → Nat` plus a cursor.  `below n`
  reduces the next raw draw modulo `n`, so every draw is in `[0, n)` exactly
  as the facade guarantees.  The stream itself is arbitrary, which quantifies
  over every reachable generator state.
* `Duration` values are kept in integer milliseconds; `as_secs_f32` becomes
  division by 1000 in `ℚ`.
-/

/-- Raw-draw stream model of `rand::Rand`: an infinite tape of raw values and
a cursor.  Each facade operation consumes tape cells from the cursor on. -/
structure Rng where
  stream : Nat → Nat
  idx : Nat

/-- State-threading monad for the generator (the Rust code mutates the
generator through interior mutability; here the state is explicit). -/
abbrev RandM := StateM Rng

/-- `Rand::below(num)`: uniform draw in `[0, num)`.  A raw tape cell is
reduced modulo `num`.  (`num = 0` panics in Rust and is unreachable in the
engine; it is mapped to `0` here.) -/
def Rand.below (num : Nat) : RandM Nat := do
  let g ← get
  set (Rng.mk g.stream (g.idx + 1))
  pure (if num = 0 then 0 else g.stream g.idx % num)

/-- `Rand::below_low(num)`: the min of two draws, biased low. -/
def Rand.below_low (num : Nat) : RandM Nat := do
  let a ← Rand.below num
  let b ← Rand.below num
  pure (Nat.min a b)

/-- `Rand::odds(chance, quantum)`: true with probability `chance/quantum`. -/
def Rand.odds (chance quantum : Nat) : RandM Bool := do
  let d ← Rand.below quantum
  pure (decide (d < chance))

/-- `Rand::choice(slice)`: uniform element.  The Rust version panics on an
empty slice; the engine only ever passes non-empty lists, and the model
returns `dflt` in that unreachable case. -/
def Rand.choice (l : List α) (dflt : α) : RandM α := do
  let i ← Rand.below l.length
  pure (l.getD i dflt)

/-- `Rand::choice_low(slice)`: low-biased element selection. -/
def Rand.choice_low (l : List α) (dflt : α) : RandM α := do
  let i ← Rand.below_low l.length
  pure (l.getD i dflt)

/-- Modelled from the spec: `Rand::seed` wraps the external `fastrand` crate
(not part of this repository); the spec only requires a seedable
deterministic uniform generator, so the raw tape is a fixed mixing function
of the seed. -/
def Rand.seed (seed : Nat) : Rng :=
  Rng.mk (fun i => (seed * 6364136223846793005 + i * 1442695040888963407) % 2 ^ 64) 0

/-- Rust `as usize` on an `isize` value: wrap modulo `2^64`
(= 18446744073709551616; kept as a numeral so the kernel can evaluate). -/
def asUsize (x : Int) : Nat := (x % 18446744073709551616).toNat

/-- Rust `as u64`: same wrap. -/
def asU64 (x : Int) : Nat := asUsize x

/-- `mechanics::Bar`: bounded progress accumulator (`pos`, `max` are `f32`
in Rust, exact rationals here). -/
structure Bar where
  pos : ℚ
  max : ℚ
  deriving DecidableEq

/-- `Bar::with_max`. -/
def Bar.with_max (m : ℚ) : Bar := Bar.mk 0 m

/-- `Bar::remaining`. -/
def Bar.remaining (b : Bar) : ℚ := b.max - b.pos

/-- `Bar::increment`: `pos = min(pos + x, max)`. -/
def Bar.increment (b : Bar) (x : ℚ) : Bar :=
  Bar.mk (min (b.pos + x) b.max) b.max

/-- `Bar::is_done`: `pos >= max`. -/
def Bar.is_done (b : Bar) : Bool := decide (b.max ≤ b.pos)

/-- `Bar::reset`: new max, zeroed pos. -/
def Bar.reset (_b : Bar) (m : ℚ) : Bar := Bar.mk 0 m

/-- `mechanics::InventoryItem`. -/
structure InventoryItem where
  name : String
  quantity : Nat
  deriving DecidableEq

/-- `mechanics::Inventory`: ordered item list, signed gold, capacity, and the
encumbrance bar. -/
structure Inventory where
  capacity : Nat
  gold : Int
  items : List InventoryItem
  encumbrance : Bar
  deriving DecidableEq

/-- `Inventory::new(capacity)`. -/
def Inventory.new (capacity : Nat) : Inventory :=
  Inventory.mk capacity 0 [] (Bar.with_max (capacity : ℚ))

/-- `Inventory::len`. -/
def Inventory.len (inv : Inventory) : Nat := inv.items.length

/-- `Inventory::is_empty`. -/
def Inventory.is_empty (inv : Inventory) : Bool := decide (inv.len = 0)

/-- `Inventory::set_capacity`. -/
def Inventory.set_capacity (inv : Inventory) (cap : Nat) : Inventory :=
  { inv with capacity := cap }

/-- `Inventory::add_gold`. -/
def Inventory.add_gold (inv : Inventory) (quantity : Int) : Inventory :=
  { inv with gold := inv.gold + quantity }

/-- Sum of all item quantities (the value `update_bar` recomputes). -/
def Inventory.quantitySum (inv : Inventory) : Nat :=
  (inv.items.map InventoryItem.quantity).sum

/-- `Inventory::update_bar`: sets the encumbrance position to the exact sum
of the quantities. -/
def Inventory.update_bar (inv : Inventory) : Inventory :=
  { inv with encumbrance := Bar.mk (inv.quantitySum : ℚ) inv.encumbrance.max }

/-- Merge helper for `Inventory::add_item`: bump the quantity of the first
entry with the given name. -/
def Inventory.bumpFirst (name : String) (quantity : Nat) :
    List InventoryItem → List InventoryItem
  | [] => []
  | it :: rest =>
      if it.name = name then { it with quantity := it.quantity + quantity } :: rest
      else it :: Inventory.bumpFirst name quantity rest

/-- `Inventory::add_item`: an exact-name match merges the quantity and
returns immediately (note: without touching the encumbrance bar); otherwise
the item is appended and `update_bar` runs. -/
def Inventory.add_item (inv : Inventory) (item : String) (quantity : Nat) : Inventory :=
  if inv.items.any (fun it => it.name = item) then
    { inv with items := Inventory.bumpFirst item quantity inv.items }
  else
    Inventory.update_bar
      { inv with items := inv.items ++ [InventoryItem.mk item quantity] }

/-- `Inventory::pop`: drop the last item (panics on empty in Rust,
unreachable in the engine), then `update_bar`. -/
def Inventory.pop (inv : Inventory) : Inventory :=
  Inventory.update_bar { inv with items := inv.items.dropLast }

/-- `mechanics::QuestBook::MAX_QUESTS`. -/
def QuestBook.MAX_QUESTS : Nat := 100

/-- Eviction loop of `QuestBook::add_quest`: `while len >= 100 { pop_front }`
(structural recursion on the deque; each iteration drops the front). -/
def QuestBook.evict : List String → List String
  | [] => []
  | x :: xs =>
      if QuestBook.MAX_QUESTS ≤ (x :: xs).length then QuestBook.evict xs else x :: xs

/-- Modelled from the spec: the stat key enum from the missing
`config.rs` ("a fixed, always-complete key set"; `mechanics.rs` names
`Strength`, `Condition`, `Intelligence`, `Wisdom`, `HpMax`, `MpMax`; the
remaining prime stats are genre-standard). -/
inductive Stat where
  | Strength | Condition | Dexterity | Intelligence | Wisdom | Charisma
  | HpMax | MpMax
  deriving DecidableEq

/-- Modelled from the spec: `config::ALL_STATS` (fixed key iteration order of
the missing catalogue). -/
def ALL_STATS : List Stat :=
  [Stat.Strength, Stat.Condition, Stat.Dexterity, Stat.Intelligence,
   Stat.Wisdom, Stat.Charisma, Stat.HpMax, Stat.MpMax]

/-- Modelled from the spec: `config::PRIME_STATS` — the stats "rolled
directly (vs. derived stats like HpMax/MpMax)". -/
def PRIME_STATS : List Stat :=
  [Stat.Strength, Stat.Condition, Stat.Dexterity, Stat.Intelligence,
   Stat.Wisdom, Stat.Charisma]

/-- `config::Monster`: name, level, optional item drop (field shape fixed by
its uses in `mechanics.rs`). -/
structure Monster where
  name : String
  level : Nat
  item : Option String
  deriving DecidableEq

/-- Modelled from the spec: `config::Race` (only its `name` is read by the
core). -/
structure Race where
  name : String
  deriving DecidableEq

/-- Modelled from the spec: `config::Class` (only its `name` is read by the
core; named `CClass` because `Class` is taken in Lean). -/
structure CClass where
  name : String
  deriving DecidableEq

/-- Modelled from the spec: `config::EquipmentPreset` — "per-slot equipment
presets with name+quality". -/
structure EquipmentPreset where
  name : String
  quality : Int
  deriving DecidableEq

/-- Modelled from the spec: the static monster catalogue (non-empty table
with name/level/optional item-drop); concrete entries are illustrative. -/
def MONSTERS : List Monster :=
  [Monster.mk "giant rat" 2 (some "tail"),
   Monster.mk "kobold" 3 (some "ear"),
   Monster.mk "goblin" 4 (some "nose"),
   Monster.mk "will-o-wisp" 5 none,
   Monster.mk "orc" 8 (some "tusk"),
   Monster.mk "troll" 14 (some "hide"),
   Monster.mk "dragon" 30 (some "scale")]

/-- Modelled from the spec: `config::RACES` (non-empty). -/
def RACES : List Race :=
  [Race.mk "human", Race.mk "elf", Race.mk "dwarf", Race.mk "gnome"]

/-- Modelled from the spec: `config::CLASSES` (non-empty). -/
def CLASSES : List CClass :=
  [CClass.mk "fighter", CClass.mk "mage", CClass.mk "rogue", CClass.mk "cleric"]

/-- Modelled from the spec: `config::TITLES` (non-empty word list). -/
def TITLES : List String := ["Sir", "Lady", "Lord", "Dame", "Baron"]

/-- Modelled from the spec: `config::IMPRESSIVE_TITLES` (non-empty). -/
def IMPRESSIVE_TITLES : List String := ["King", "Queen", "Archduke", "Pontiff"]

/-- Modelled from the spec: `config::BORING_ITEMS` (non-empty). -/
def BORING_ITEMS : List String := ["rock", "stick", "bucket", "rope", "turnip"]

/-- Modelled from the spec: `config::ITEM_ATTRIBUTES` (non-empty). -/
def ITEM_ATTRIBUTES : List String := ["glowing", "ancient", "cursed", "shimmering"]

/-- Modelled from the spec: `config::SPECIALS` (non-empty). -/
def SPECIALS : List String := ["orb", "talisman", "idol", "sigil"]

/-- Modelled from the spec: `config::ITEM_PREPOSITION` (non-empty). -/
def ITEM_PREPOSITION : List String := ["doom", "wonder", "the ages", "power"]

/-- Modelled from the spec: `config::SPELLS` (non-empty spell-name list). -/
def SPELLS : List String :=
  ["Spark", "Hobble", "Slime Finger", "Tonic", "Fear", "Revolting Cloud",
   "Aqueous Humor", "Nestor", "Gyre", "Innoculate"]

/-- Modelled from the spec: `config::WEAPONS` (non-empty preset table). -/
def WEAPONS : List EquipmentPreset :=
  [EquipmentPreset.mk "Stick" 0, EquipmentPreset.mk "Dagger" 2,
   EquipmentPreset.mk "Shortsword" 4, EquipmentPreset.mk "Longsword" 6,
   EquipmentPreset.mk "Bastard Sword" 9, EquipmentPreset.mk "Claymore" 12]

/-- Modelled from the spec: `config::SHIELDS` (non-empty preset table). -/
def SHIELDS : List EquipmentPreset :=
  [EquipmentPreset.mk "Cardboard Lid" 0, EquipmentPreset.mk "Buckler" 2,
   EquipmentPreset.mk "Kite Shield" 5, EquipmentPreset.mk "Tower Shield" 9]

/-- Modelled from the spec: `config::ARMORS` (non-empty preset table). -/
def ARMORS : List EquipmentPreset :=
  [EquipmentPreset.mk "Burlap" 0, EquipmentPreset.mk "Leather" 3,
   EquipmentPreset.mk "Chainmail" 6, EquipmentPreset.mk "Platemail" 10]

/-- Modelled from the spec: `config::OFFENSE_ATTRIBUTE` (positive-quality
weapon modifiers). -/
def OFFENSE_ATTRIBUTE : List EquipmentPreset :=
  [EquipmentPreset.mk "Polished" 1, EquipmentPreset.mk "Serrated" 2,
   EquipmentPreset.mk "Vorpal" 4]

/-- Modelled from the spec: `config::OFFENSE_QUIRK` (negative-quality weapon
modifiers). -/
def OFFENSE_QUIRK : List EquipmentPreset :=
  [EquipmentPreset.mk "Dull" (-1), EquipmentPreset.mk "Bent" (-2),
   EquipmentPreset.mk "Mostly Ceremonial" (-4)]

/-- Modelled from the spec: `config::DEFENSE_ATTRIBUTE`. -/
def DEFENSE_ATTRIBUTE : List EquipmentPreset :=
  [EquipmentPreset.mk "Studded" 1, EquipmentPreset.mk "Banded" 2,
   EquipmentPreset.mk "Holy" 4]

/-- Modelled from the spec: `config::DEFENSE_QUIRK`. -/
def DEFENSE_QUIRK : List EquipmentPreset :=
  [EquipmentPreset.mk "Rusty" (-1), EquipmentPreset.mk "Moth-Eaten" (-2),
   EquipmentPreset.mk "Cursed" (-4)]

/-- `mechanics::Stats`: ordered (stat, value) pairs. -/
structure Stats where
  values : List (Stat × Nat)
  deriving DecidableEq

/-- One comparison step of Rust `Iterator::max_by_key`: the accumulator is
replaced whenever the new key is greater or equal (so the LAST maximum
wins). -/
def maxPick (f : α → Nat) (acc y : α) : α := if f acc ≤ f y then y else acc

/-- Rust `Iterator::max_by_key` semantics on a list: `none` on empty, else
the LAST element attaining the maximal key. -/
def maxByKeyLast (f : α → Nat) : List α → Option α
  | [] => none
  | x :: xs => some (xs.foldl (maxPick f) x)

/-- `Stats::best`: argmax by value over every stat (Rust unwraps; model keeps
the `Option`, `none` only for the empty-values case Rust asserts against). -/
def Stats.best (s : Stats) : Option Stat :=
  (maxByKeyLast (fun p => p.2) s.values).map Prod.fst

/-- `Stats::best_prime`: argmax restricted to prime stats. -/
def Stats.best_prime (s : Stats) : Option Stat :=
  (maxByKeyLast (fun p => p.2)
    (s.values.filter (fun p => PRIME_STATS.contains p.1))).map Prod.fst

/-- Quantity bump of the first entry matching `stat` (the `find_map` in
`Stats::increment`; a missing stat panics in Rust and is left unchanged
here). -/
def Stats.incrementList (stat : Stat) (q : Nat) : List (Stat × Nat) → List (Stat × Nat)
  | [] => []
  | p :: rest =>
      if p.1 = stat then (p.1, p.2 + q) :: rest
      else p :: Stats.incrementList stat q rest

/-- `Stats::increment`. -/
def Stats.increment (s : Stats) (stat : Stat) (q : Nat) : Stats :=
  Stats.mk (Stats.incrementList stat q s.values)

/-- `Stats[stat]` (the `Index` impl; missing stat panics in Rust, 0 here). -/
def Stats.get (s : Stats) (stat : Stat) : Nat :=
  ((s.values.find? (fun p => decide (p.1 = stat))).map Prod.snd).getD 0

/-- `mechanics::Spell`. -/
structure Spell where
  name : String
  level : Int
  deriving DecidableEq

/-- `mechanics::SpellBook`. -/
structure SpellBook where
  spells : List Spell
  deriving DecidableEq

/-- `SpellBook::add`: exact-name match accumulates the level, else append. -/
def SpellBook.addList (name : String) (level : Int) : List Spell → List Spell
  | [] => [Spell.mk name level]
  | sp :: rest =>
      if sp.name = name then { sp with level := sp.level + level } :: rest
      else sp :: SpellBook.addList name level rest

/-- `SpellBook::add` on the book. -/
def SpellBook.add (b : SpellBook) (name : String) (level : Int) : SpellBook :=
  SpellBook.mk (SpellBook.addList name level b.spells)

/-- `config::Equipment` slot enum (the ten fixed slots named in
`mechanics.rs`). -/
inductive EquipSlot where
  | Weapon | Shield | Helm | Hauberk | Brassairts
  | Vambraces | Gauntlets | Guisses | Greaves | Sollerets
  deriving DecidableEq

/-- BTreeMap key order for the slot enum (declaration order). -/
def EquipSlot.rank : EquipSlot → Nat
  | .Weapon => 0 | .Shield => 1 | .Helm => 2 | .Hauberk => 3 | .Brassairts => 4
  | .Vambraces => 5 | .Gauntlets => 6 | .Guisses => 7 | .Greaves => 8 | .Sollerets => 9

/-- Modelled from the spec: `Equipment::as_str` of the missing `config.rs`
(the slot suffix appended to the "best" display string). -/
def EquipSlot.as_str : EquipSlot → String
  | .Weapon => "weapon" | .Shield => "shield" | .Helm => "helm"
  | .Hauberk => "hauberk" | .Brassairts => "brassairts"
  | .Vambraces => "vambraces" | .Gauntlets => "gauntlets"
  | .Guisses => "guisses" | .Greaves => "greaves" | .Sollerets => "sollerets"

/-- `mechanics::Equipment`: slot → name map (kept as a rank-sorted
association list, mirroring the `BTreeMap`), plus the derived "best"
display string. -/
structure Equipment where
  items : List (EquipSlot × String)
  best : String
  deriving DecidableEq

/-- `BTreeMap::entry(ty).or_default()` followed by overwrite: ordered
insert-or-replace. -/
def Equipment.insertReplace (ty : EquipSlot) (name : String) :
    List (EquipSlot × String) → List (EquipSlot × String)
  | [] => [(ty, name)]
  | p :: rest =>
      if p.1 = ty then (ty, name) :: rest
      else if ty.rank < p.1.rank then (ty, name) :: p :: rest
      else p :: Equipment.insertReplace ty name rest

/-- `Equipment::default()`: Sharp Rock weapon, -3 Burlap hauberk. -/
def Equipment.default : Equipment :=
  Equipment.mk [(EquipSlot.Weapon, "Sharp Rock"), (EquipSlot.Hauberk, "-3 Burlap")]
    "Sharp Rock"

/-- `Equipment::add`: overwrite one slot and recompute the "best" string
(`"{name} {slot-suffix}"`, empty suffix for Weapon/Shield). -/
def Equipment.add (e : Equipment) (ty : EquipSlot) (name : String) : Equipment :=
  Equipment.mk (Equipment.insertReplace ty name e.items)
    (name ++ " " ++ (if ty = EquipSlot.Weapon ∨ ty = EquipSlot.Shield then "" else ty.as_str))

/-- Modelled from the spec: `heck::ToTitleCase` (external crate) — the name
generator "title-cases the result".  Space-separated words get an uppercased
first letter, rest lowercased. -/
def titleCase (s : String) : String :=
  String.intercalate " " ((s.splitOn " ").map fun w =>
    match w.data with
    | [] => w
    | c :: rest => String.mk (c.toUpper :: rest.map Char.toLower))

/-- `lingo::generate_name`'s three phoneme-class fragment tables (onset,
nucleus, coda), verbatim from `lingo.rs`. -/
def NAME_PARTS : List (List String) :=
  [["br", "cr", "dr", "fr", "gr", "j", "kr", "l", "m", "n", "pr", " ", " ", " ",
    "r", "sh", "tr", "v", "wh", "x", "y", "z"],
   ["a", "a", "e", "e", "i", "i", "o", "o", "u", "u", "ae", "ie", "oo", "ou"],
   ["b", "ck", "d", "g", "k", "m", "n", "p", "t", "v", "x", "z"]]

/-- `lingo::generate_name`: concatenate `max_fragments` (default 6) pieces,
cycling through the three phoneme classes by position, then title-case. -/
def generate_name (max_fragments : Option Nat) : RandM String := do
  let n := max_fragments.getD 6
  let s ← (List.range n).foldlM (fun a i => do
      let part ← Rand.choice (NAME_PARTS.getD (i % 3) []) ""
      pure (a ++ part)) ""
  pure (titleCase s)

/-- Character table of `format::Roman::from_i32`'s `to_char`. -/
def romanChar : Nat → Char
  | 1000 => 'M' | 100 => 'C' | 10 => 'X'
  | 500 => 'D' | 50 => 'L' | 5 => 'V'
  | 1 => 'I'
  | _ => 'I'

/-- Inner `while number >= v` loop of `Roman::from_i32`, structurally
fuelled by `number.toNat` (each pass subtracts `v ≥ 1`, so the fuel always
suffices). -/
def romanWhileGo (v : Nat) (c : Char) : Nat → Int → String → String × Int
  | 0, number, acc => (acc, number)
  | fuel + 1, number, acc =>
      if 0 < v ∧ (v : Int) ≤ number then romanWhileGo v c fuel (number - (v : Int)) (acc.push c)
      else (acc, number)

/-- Inner `while number >= v` loop of `Roman::from_i32`. -/
def romanWhile (v : Nat) (c : Char) (number : Int) (acc : String) : String × Int :=
  romanWhileGo v c number.toNat number acc

/-- One `(k, v)` step of `Roman::from_i32`'s fold. -/
def Roman.step (acc : String × Int) (kv : Nat × Nat) : String × Int :=
  let (numerals, number) := acc
  let (k, v) := kv
  let (numerals, number) := romanWhile v (romanChar v) number numerals
  let diff : Int := (v : Int) - (k : Int)
  if diff ≤ number then
    ((numerals.push (romanChar k)).push (romanChar v), number - diff)
  else (numerals, number)

/-- `format::Roman::from_i32`. -/
def Roman.from_i32 (number : Int) : String :=
  let (numerals, rest) :=
    [(100, 1000), (100, 500), (10, 100), (10, 50), (1, 10), (1, 5)].foldl
      Roman.step ("", number)
  numerals ++ String.mk (List.replicate rest.toNat 'I')

/-- `lingo::act_name`. -/
def act_name (act : Int) : String :=
  if act = 0 then "Prologue" else "Act " ++ Roman.from_i32 act

/-- Character-list suffix test (the strings here are ASCII, so this agrees
with Rust `str::ends_with`; Lean's built-in `String.endsWith` is opaque to
the kernel). -/
def strEndsWith (s suf : String) : Bool :=
  decide (s.data.drop (s.data.length - suf.data.length) = suf.data)

/-- Character-list truncation (`&subject[..len - n]` on ASCII). -/
def strDropRight (s : String) (n : Nat) : String :=
  String.mk (s.data.take (s.data.length - n))

/-- `lingo::plural`: the suffix-rule pluralizer, byte-slice rules verbatim. -/
def plural (subject : String) : String :=
  if strEndsWith subject "y" then strDropRight subject 1 ++ "ies"
  else if strEndsWith subject "us" then strDropRight subject 2 ++ "i"
  else if strEndsWith subject "x" || strEndsWith subject "s" || strEndsWith subject "ch"
      || strEndsWith subject "sh" then subject ++ "es"
  else if strEndsWith subject "f" then strDropRight subject 1 ++ "ves"
  else if strEndsWith subject "man" || strEndsWith subject "Man" then
    strDropRight subject 2 ++ "en"
  else subject ++ "s"

/-- Vowel-initial test of `lingo::indefinite`. -/
def startsWithVowel (subject : String) : Bool :=
  match subject.data with
  | [] => false
  | c :: _ => decide (c ∈ ['A', 'E', 'I', 'O', 'U', 'a', 'e', 'i', 'o', 'u'])

/-- `lingo::indefinite`. -/
def indefinite (subject : String) (quantity : Nat) : String :=
  if quantity = 1 then
    if startsWithVowel subject then "an " ++ subject else "a " ++ subject
  else toString quantity ++ " " ++ plural subject

/-- `lingo::definite`. -/
def definite (subject : String) (quantity : Nat) : String :=
  "the " ++ (if 1 < quantity then plural subject else subject)

/-- `lingo`'s bounded ladder lookup (named `prefix` in the source): an index
outside `[1, len]` leaves the subject unchanged. -/
def adorn (ladder : List String) (m : Nat) (subject : String) (sep : Option String) : String :=
  if m < 1 ∨ ladder.length < m then subject
  else ladder.getD (m - 1) "" ++ sep.getD " " ++ subject

/-- `lingo::sick`'s ladder. -/
def SICK_LIST : List String := ["dead", "comatose", "crippled", "sick", "undernourished"]

/-- `lingo::sick`: inverted severity indexing. -/
def sick (m : Nat) (subject : String) : String :=
  adorn SICK_LIST (SICK_LIST.length - m) subject none

/-- `lingo::young`'s ladder. -/
def YOUNG_LIST : List String := ["fetal", "baby", "preadolescent", "teenage", "underage"]

/-- `lingo::young`: inverted severity indexing. -/
def young (m : Nat) (subject : String) : String :=
  adorn YOUNG_LIST (YOUNG_LIST.length - m) subject none

/-- `lingo::big`'s ladder. -/
def BIG_LIST : List String := ["greater", "massive", "enormous", "giant", "titantic"]

/-- `lingo::big`: forward severity indexing. -/
def big (m : Nat) (subject : String) : String :=
  adorn BIG_LIST m subject none

/-- `lingo::special`'s space-joined ladder. -/
def SPECIAL_SPACED : List String := ["veteran", "cursed", "warrior", "undead", "demon"]

/-- `lingo::special`'s prefix-joined ladder. -/
def SPECIAL_JOINED : List String := ["Battle-", "cursed ", "Were-", "undead ", "demon "]

/-- `lingo::special`: variant depends on whether the subject has a space. -/
def special (m : Nat) (subject : String) : String :=
  if subject.data.contains ' ' then adorn SPECIAL_SPACED m subject none
  else adorn SPECIAL_JOINED m subject (some "")

/-- `mechanics::QuestBook`. -/
structure QuestBook where
  quests : List String
  act : Int
  monster : Option Monster
  plot : Bar
  quest : Bar
  deriving DecidableEq

/-- `QuestBook::new`. -/
def QuestBook.new : QuestBook :=
  QuestBook.mk [] 0 none (Bar.with_max 1) (Bar.with_max 1)

/-- `QuestBook::next_act`. -/
def QuestBook.next_act (qb : QuestBook) : QuestBook := { qb with act := qb.act + 1 }

/-- `QuestBook::add_quest`: evict at capacity, then append. -/
def QuestBook.add_quest (qb : QuestBook) (q : String) : QuestBook :=
  { qb with quests := QuestBook.evict qb.quests ++ [q] }

/-- `QuestBook::current_quest`: the last entry. -/
def QuestBook.current_quest (qb : QuestBook) : Option String := qb.quests.getLast?

/-- `QuestBook::completed_quests`: all but the last entry. -/
def QuestBook.completed_quests (qb : QuestBook) : List String :=
  qb.quests.take (qb.quests.length - 1)

/-- `mechanics::TaskKind`. -/
inductive TaskKind where
  | Kill (monster : Option Monster)
  | Buy | HeadingOut | HeadingToMarket | Sell | Regular | Plot
  deriving DecidableEq

/-- `mechanics::Task` (duration in integer milliseconds; named `GTask`
because `Task` is taken in Lean). -/
structure GTask where
  description : String
  duration_ms : Nat
  kind : TaskKind
  deriving DecidableEq

/-- `Duration::as_secs_f32` on a millisecond duration. -/
def GTask.as_secs (t : GTask) : ℚ := (t.duration_ms : ℚ) / 1000

/-- `Task::regular`. -/
def GTask.regular (d : String) (ms : Nat) : GTask := GTask.mk d ms TaskKind.Regular

/-- `Task::plot`. -/
def GTask.plot (d : String) (ms : Nat) : GTask := GTask.mk d ms TaskKind.Plot

/-- `Task::sell`. -/
def GTask.sell (d : String) (ms : Nat) : GTask := GTask.mk d ms TaskKind.Sell

/-- `Task::heading_to_market`. -/
def GTask.heading_to_market (d : String) (ms : Nat) : GTask :=
  GTask.mk d ms TaskKind.HeadingToMarket

/-- `Task::heading_out`. -/
def GTask.heading_out (d : String) (ms : Nat) : GTask := GTask.mk d ms TaskKind.HeadingOut

/-- `Task::buy`. -/
def GTask.buy (d : String) (ms : Nat) : GTask := GTask.mk d ms TaskKind.Buy

/-- Fallback element for monster draws (unreachable: `MONSTERS` is
non-empty). -/
def defaultMonster : Monster := Monster.mk "" 0 none

/-- The `attempts` refinement loop of `mechanics::unnamed_monster`
(closest-of-N with `usize::saturating_sub` distances). -/
def unnamed_monster_go (level : Nat) : Nat → Monster → RandM Monster
  | 0, m => pure m
  | n + 1, m => do
      let alt ← Rand.choice MONSTERS defaultMonster
      let m := if level - alt.level < level - m.level then alt else m
      unnamed_monster_go level n m

/-- `mechanics::unnamed_monster`. -/
def unnamed_monster (level attempts : Nat) : RandM Monster := do
  let m ← Rand.choice MONSTERS defaultMonster
  unnamed_monster_go level attempts m

/-- `mechanics::named_monster`. -/
def named_monster (level : Nat) : RandM String := do
  let m ← unnamed_monster level 4
  let nm ← generate_name none
  pure (nm ++ " the " ++ m.name)

/-- `mechanics::interesting_item`. -/
def interesting_item : RandM String := do
  let a ← Rand.choice ITEM_ATTRIBUTES ""
  let s ← Rand.choice SPECIALS ""
  pure (a ++ " " ++ s)

/-- `mechanics::special_item`. -/
def special_item : RandM String := do
  let i ← interesting_item
  let p ← Rand.choice ITEM_PREPOSITION ""
  pure (i ++ " of " ++ p)

/-- `mechanics::boring_item`. -/
def boring_item : RandM String := Rand.choice BORING_ITEMS ""

/-- `mechanics::impressive_npc` (the doubled space before the name is in the
source format string). -/
def impressive_npc : RandM String := do
  let title ← Rand.choice IMPRESSIVE_TITLES ""
  let third ← Rand.odds 1 3
  let (suffix, name) ←
    if third then do
      let race ← Rand.choice RACES (Race.mk "")
      pure ("of the ", race.name)
    else do
      let nm ← generate_name none
      pure ("of ", nm)
  pure (title ++ " " ++ suffix ++ " " ++ name)

/-- The `for _ in 0..player_level` ±1 random-walk of `Task::monster`. -/
def perturb : Nat → Int → RandM Int
  | 0, level => pure level
  | n + 1, level => do
      let hit ← Rand.odds 2 5
      let level ←
        if hit then do
          let d ← Rand.below 2
          pure (level + ((d : Int) * 2 - 1))
        else pure level
      perturb n level

/-- The severity-phrasing match of `Task::monster` (its scrutinee is the
signed gap `level - task_level`; arms translated in source order, including
the arms made unreachable by the `>= -10` guard). -/
def severityPhrase (gap : Int) (result : String) : RandM String := do
  if gap ≤ -10 then pure ("imaginary " ++ result)
  else if gap < -5 then do
    let i0 := 10 + gap
    let d ← Rand.below (asUsize (i0 + 1))
    let i : Nat := 5 - d
    pure (sick i (young (asUsize (-gap - (i : Int))) result))
  else if gap < 0 then do
    let coin ← Rand.odds 1 2
    if coin then pure (sick (asUsize gap) result)
    else pure (young (asUsize gap) result)
  else if -10 ≤ gap then pure ("unreal " ++ result)
  else if 5 < gap then do
    let d ← Rand.below (asUsize (10 - gap + 1))
    let i : Nat := 5 - d
    pure (big i (special (asUsize (-gap - (i : Int))) result))
  else if 0 < gap then do
    let coin ← Rand.odds 1 2
    if coin then pure (big (asUsize gap) result)
    else pure (special (asUsize gap) result)
  else pure result

/-- Rust `as isize` on a `usize` value: wrap into `[-2^63, 2^63)`
(numerals: 9223372036854775808 = 2^63). -/
def asIsize (x : Int) : Int :=
  (x + 9223372036854775808) % 18446744073709551616 - 9223372036854775808

/-- The swarm-scaling arithmetic of `Task::monster` (`qty = max(1, (level +
draw) / task_level.max(1))`, then `level /= qty`), as a pure function of the
draw.  Returns `(qty, draw, divided level)`. -/
def swarmScale (level task_level : Int) (d : Nat) : Int × Int × Int :=
  let q := (level + (d : Int)).tdiv (max task_level 1)
  let q := max q 1
  (q, (d : Int), level.tdiv q)

/-- The numeric intermediates of `Task::monster`, in source draw order:
level perturbation and clamp, the NPC / quest-monster / unnamed-monster
trichotomy, then swarm scaling. -/
structure MonsterNumbers where
  perturbed : Int
  encLevel : Int
  taskLevel : Int
  is_definite : Bool
  baseName : String
  monster : Option Monster
  qty : Int
  swarmDraw : Int
  dividedLevel : Int
  deriving DecidableEq

/-- Every value `Task::monster` computes up to (and excluding) the severity
phrasing. -/
def monsterNumbers (player_level : Int) (quest_monster : Option Monster) :
    RandM MonsterNumbers := do
  let perturbed ← perturb player_level.toNat player_level
  let level := max perturbed 1
  let npc ← Rand.odds 1 25
  let (result, is_definite, monster, task_level) ←
    if npc then do
      let race ← Rand.choice RACES (Race.mk "")
      let half ← Rand.odds 1 2
      if half then do
        let cls ← Rand.choice CLASSES (CClass.mk "")
        pure ("passing " ++ race.name ++ " " ++ cls.name, false,
          (none : Option Monster), level)
      else do
        let title ← Rand.choice_low TITLES ""
        let nm ← generate_name none
        pure (title ++ " " ++ nm ++ " the " ++ race.name, true,
          (none : Option Monster), level)
    else do
      let useQuest ← if quest_monster.isSome then Rand.odds 1 4 else pure false
      match quest_monster, useQuest with
      | some qm, true => pure (qm.name, false, some qm, asIsize ((qm.level : Int)))
      | _, _ => do
          let m ← unnamed_monster (asUsize level) 5
          pure (m.name, false, some m, asIsize ((m.level : Int)))
  let (qty, swarmDraw, dividedLevel) ←
    if 10 < level - task_level then do
      let d ← Rand.below (asUsize (max task_level 1))
      pure (swarmScale level task_level d)
    else pure ((1 : Int), (0 : Int), level)
  pure (MonsterNumbers.mk perturbed level task_level is_definite result monster qty
    swarmDraw dividedLevel)

/-- Every intermediate value `Task::monster` computes, recorded so that
properties of the synthesis can be stated directly. -/
structure MonsterOutcome where
  perturbed : Int
  encLevel : Int
  taskLevel : Int
  is_definite : Bool
  baseName : String
  monster : Option Monster
  qty : Int
  swarmDraw : Int
  dividedLevel : Int
  sevGap : Int
  sevPhrase : String
  finalName : String
  total : Int
  description : String
  durationMs : Nat
  deriving DecidableEq

/-- `Task::monster`, step for step: the numeric stage above, then severity
phrasing on the (post-division) gap, article via `indefinite` unless the
name is definite, and duration `(2*3*total*1000)/player_level` ms. -/
def monsterCore (player_level : Int) (quest_monster : Option Monster) :
    RandM MonsterOutcome := do
  let n ← monsterNumbers player_level quest_monster
  let sevGap := n.dividedLevel - n.taskLevel
  let sevPhrase ← severityPhrase sevGap n.baseName
  let total := n.dividedLevel * n.qty
  let finalName := if n.is_definite then sevPhrase else indefinite sevPhrase (asUsize n.qty)
  let durationMs := asU64 ((2 * 3 * total * 1000).tdiv player_level)
  pure (MonsterOutcome.mk n.perturbed n.encLevel n.taskLevel n.is_definite n.baseName
    n.monster n.qty n.swarmDraw n.dividedLevel sevGap sevPhrase finalName total
    ("Attacking " ++ finalName) durationMs)

/-- `Task::monster` as a task. -/
def GTask.monster (player_level : Int) (quest_monster : Option Monster) : RandM GTask := do
  let c ← monsterCore player_level quest_monster
  pure (GTask.mk c.description c.durationMs (TaskKind.Kill c.monster))

/-- `mechanics::level_up_time` in whole seconds (`20 * level` minutes). -/
def level_up_time_secs (level : Nat) : Nat := 20 * level * 60

/-- `mechanics::Player`. -/
structure Player where
  name : String
  race : Race
  cclass : CClass
  level : Nat
  stats : Stats
  elapsed : ℚ
  quest_book : QuestBook
  spell_book : SpellBook
  inventory : Inventory
  equipment : Equipment
  task : Option GTask
  queue : List GTask
  task_bar : Bar
  exp_bar : Bar
  deriving DecidableEq

/-- `Player::new`: level 1, inventory capacity `10 + Strength`, default
ledgers, a 1-unit task bar and a level-1 experience bar. -/
def Player.new (name : String) (race : Race) (cls : CClass) (stats : Stats) : Player :=
  Player.mk name race cls 1 stats 0 QuestBook.new (SpellBook.mk [])
    (Inventory.new (10 + stats.get Stat.Strength)) Equipment.default
    none [] (Bar.with_max 1) (Bar.with_max ((level_up_time_secs 1 : Nat) : ℚ))

/-- `Player::set_task`: reset the task bar to the task's duration in seconds
and install the task. -/
def Player.set_task (p : Player) (t : GTask) : Player :=
  { p with task_bar := p.task_bar.reset t.as_secs, task := some t }

/-- `Player::equipment_price`: `5*level² + 10*level + 20`. -/
def Player.equipment_price (p : Player) : Int :=
  ((5 * p.level ^ 2 + 10 * p.level + 20 : Nat) : Int)

/-- `Player::choose_item`: add one freshly generated special item. -/
def Player.choose_item (p : Player) : RandM Player := do
  let it ← special_item
  pure { p with inventory := p.inventory.add_item it 1 }

/-- The weighted scan in `Player::choose_stat` (`checked_sub` walk over the
squared stat values; first failure wins). -/
def statWeightedPick (t : Nat) : List (Stat × Nat) → Option Stat
  | [] => none
  | (stat, value) :: rest =>
      if t < value ^ 2 then some stat
      else statWeightedPick (t - value ^ 2) rest

/-- `Player::choose_stat`: a fair coin picks either a uniform stat or a
value²-weighted stat; the chosen stat is incremented and Strength growth
updates the inventory capacity. -/
def Player.choose_stat (p : Player) : RandM Player := do
  let half ← Rand.odds 1 2
  let stat ←
    if half then Rand.choice ALL_STATS Stat.Strength
    else do
      let t ← Rand.below ((p.stats.values.map (fun q => q.2 ^ 2)).sum)
      pure ((statWeightedPick t p.stats.values).getD Stat.Strength)
  let p := { p with stats := p.stats.increment stat 1 }
  if stat = Stat.Strength then
    pure { p with inventory := p.inventory.set_capacity (10 + p.stats.get Stat.Strength) }
  else pure p

/-- `Player::choose_spell`. -/
def Player.choose_spell (p : Player) : RandM Player := do
  let choice := p.stats.get Stat.Wisdom + p.level
  let i ← Rand.below_low choice
  let index := Nat.min i (SPELLS.length - 1)
  pure { p with spell_book := p.spell_book.add (SPELLS.getD index "") 1 }

/-- Fallback preset (unreachable: preset tables are non-empty). -/
def defaultPreset : EquipmentPreset := EquipmentPreset.mk "" 0

/-- The `0..5` refinement loop of `mechanics::pick_equipment` (closest-of-N
on quality). -/
def pick_equipment_go (source : List EquipmentPreset) (goal : Int) :
    Nat → EquipmentPreset → RandM EquipmentPreset
  | 0, out => pure out
  | n + 1, out => do
      let alt ← Rand.choice source defaultPreset
      let out := if (goal - alt.quality).natAbs < (goal - out.quality).natAbs then alt else out
      pick_equipment_go source goal n out

/-- `mechanics::pick_equipment`. -/
def pick_equipment (source : List EquipmentPreset) (goal : Int) : RandM EquipmentPreset := do
  let out ← Rand.choice source defaultPreset
  pick_equipment_go source goal 5 out

/-- The `while count < 2 && positive > 0` modifier loop of
`Player::choose_equipment`. -/
def modifierLoop (pool : List EquipmentPreset) :
    Nat → Int → String → RandM (Int × String)
  | 0, positive, name => pure (positive, name)
  | n + 1, positive, name => do
      if 0 < positive then do
        let modifier ← Rand.choice pool defaultPreset
        if modifier.name = name then pure (positive, name)
        else if positive.natAbs < modifier.quality.natAbs then pure (positive, name)
        else modifierLoop pool n (positive - modifier.quality) (modifier.name ++ " " ++ name)
      else pure (positive, name)

/-- The ten-slot array `Player::choose_equipment` draws from. -/
def EQUIP_SLOTS : List EquipSlot :=
  [EquipSlot.Weapon, EquipSlot.Shield, EquipSlot.Helm, EquipSlot.Hauberk,
   EquipSlot.Brassairts, EquipSlot.Vambraces, EquipSlot.Gauntlets,
   EquipSlot.Guisses, EquipSlot.Greaves, EquipSlot.Sollerets]

/-- `Player::choose_equipment`: slot draw selects the preset table, a
closest-of-N preset is decorated by up to two modifiers, a numeric delta is
prepended when quality is not met exactly, and the result is stored under a
freshly drawn slot. -/
def Player.choose_equipment (p : Player) : RandM Player := do
  let slot ← Rand.choice EQUIP_SLOTS EquipSlot.Weapon
  let (stuff, better, worse) :=
    match slot with
    | EquipSlot.Weapon => (WEAPONS, OFFENSE_ATTRIBUTE, OFFENSE_QUIRK)
    | EquipSlot.Shield => (SHIELDS, DEFENSE_ATTRIBUTE, DEFENSE_QUIRK)
    | _ => (ARMORS, DEFENSE_ATTRIBUTE, DEFENSE_QUIRK)
  let equipment ← pick_equipment stuff ((p.level : Int))
  let name := equipment.name
  let positive := (p.level : Int) - equipment.quality
  let pool := if positive < 0 then worse else better
  let (positive, name) ← modifierLoop pool 2 positive name
  let name :=
    if positive = 0 then name
    else (if 0 < positive then "+" else "") ++ toString positive ++ " " ++ name
  let slot2 ← Rand.choice EQUIP_SLOTS EquipSlot.Weapon
  pure { p with equipment := p.equipment.add slot2 name }

/-- `Player::level_up`: bump the level, grow HpMax/MpMax from Condition and
Intelligence (`n/3 + 1 + below(4)`), two stat picks, one spell, and reset
the experience bar to the level-scaled duration. -/
def Player.level_up (p : Player) : RandM Player := do
  let p := { p with level := p.level + 1 }
  let pairs := [(p.stats.get Stat.Condition, Stat.HpMax),
                (p.stats.get Stat.Intelligence, Stat.MpMax)]
  let p ← pairs.foldlM (fun p (aq : Nat × Stat) => do
      let d ← Rand.below 4
      pure { p with stats := p.stats.increment aq.2 (aq.1 / 3 + 1 + d) }) p
  let p ← Player.choose_stat p
  let p ← Player.choose_stat p
  let p ← Player.choose_spell p
  pure { p with exp_bar := p.exp_bar.reset ((level_up_time_secs p.level : Nat) : ℚ) }

/-- `matches!(kind, Kill{..} | HeadingOut)` in `Simulation::dequeue`'s
next-task selection. -/
def TaskKind.isKillOrHeadingOut : TaskKind → Bool
  | TaskKind.Kill _ => true
  | TaskKind.HeadingOut => true
  | _ => false

/-- Character-list anchored-match test: does the second list start the
first? -/
def matchesAt : List Char → List Char → Bool
  | _, [] => true
  | [], _ :: _ => false
  | c :: cs, p :: ps => c == p && matchesAt cs ps

/-- Character-list substring search. -/
def charListHas : List Char → List Char → Bool
  | _, [] => true
  | [], _ :: _ => false
  | c :: rest, p :: ps => matchesAt (c :: rest) (p :: ps) || charListHas rest (p :: ps)

/-- Rust `str::contains(" of ")` (substring test over the character list;
ASCII-equivalent to the byte search). -/
def containsOf (s : String) : Bool := charListHas s.data " of ".data

/-- `Simulation::complete_act`: advance the act, reset the plot meter to
`3600 * (1 + 5*act)` seconds, and from act 2 on grant an item and an
equipment roll. -/
def Simulation.complete_act (p : Player) : RandM Player := do
  let qb := p.quest_book.next_act
  let maxv : ℚ := ((60 * 60 * (1 + 5 * qb.act) : Int) : ℚ)
  let p := { p with quest_book := { qb with plot := qb.plot.reset maxv } }
  if 1 < p.quest_book.act then do
    let p ← Player.choose_item p
    Player.choose_equipment p
  else pure p

/-- The completion-effect match of `Simulation::dequeue` applied to the
just-finished task; the returned flag is the `break` of the Sell /
HeadingToMarket arm. -/
def Simulation.completion_effect (p : Player) (old : GTask) : RandM (Player × Bool) := do
  match old.kind with
  | TaskKind.Kill (some m) =>
      match m.item with
      | none => do
          let p ← Player.choose_item p
          pure (p, false)
      | some item => do
          let itemName := String.mk ((m.name ++ " " ++ item).data.map Char.toLower)
          pure ({ p with inventory := p.inventory.add_item itemName 1 }, false)
  | TaskKind.Buy => do
      let p := { p with inventory := p.inventory.add_gold (-(Player.equipment_price p)) }
      let p ← Player.choose_equipment p
      pure (p, false)
  | TaskKind.HeadingToMarket | TaskKind.Sell =>
      if p.inventory.is_empty then pure (p, false)
      else do
        let p ←
          if old.kind = TaskKind.Sell then do
            let item := p.inventory.items.getD 0 (InventoryItem.mk "" 0)
            let amount := item.quantity * p.level
            let amount ←
              if containsOf item.name then do
                let a ← Rand.below_low 10
                let b ← Rand.below_low p.level
                pure (amount * (1 + a * (1 + b)))
              else pure amount
            let p := { p with inventory := p.inventory.pop }
            pure { p with inventory := p.inventory.add_gold ((amount : Int)) }
          else pure p
        if p.inventory.is_empty then pure (p, false)
        else do
          let item := p.inventory.items.getD (p.inventory.len - 1) (InventoryItem.mk "" 0)
          let p := p.set_task
            (GTask.sell ("Selling " ++ indefinite item.name item.quantity) 1000)
          pure (p, true)
  | TaskKind.Plot => do
      let p ← Simulation.complete_act p
      pure (p, false)
  | _ => pure (p, false)

/-- The next-task selection at the bottom of `Simulation::dequeue`'s loop
body: full encumbrance forces a market trip, else the queue tail, else (for
non-Kill/HeadingOut tasks) Buy when affordable or HeadingOut, else a fresh
monster encounter. -/
def Simulation.next_task (p : Player) (old : GTask) : RandM Player := do
  if p.inventory.encumbrance.is_done then
    pure (p.set_task (GTask.heading_to_market "Heading to market to sell loot" 4000))
  else
    match p.queue.getLast? with
    | some t => pure (Player.set_task { p with queue := p.queue.dropLast } t)
    | none =>
        if TaskKind.isKillOrHeadingOut old.kind = false then
          if Player.equipment_price p < p.inventory.gold then
            pure (p.set_task (GTask.buy "Negotiating purchase of better equipment" 5000))
          else
            pure (p.set_task (GTask.heading_out "Heading out into the world" 4000))
        else do
          let t ← GTask.monster (asIsize ((p.level : Int))) p.quest_book.monster
          pure (p.set_task t)

/-- Fuel bound for the `while task_bar.is_done()` loop of
`Simulation::dequeue` (the loop exits as soon as a task with a nonzero
duration is installed; the fuel is never reached in the verified runs). -/
def dequeueFuel : Nat := 4096

/-- The body of `Simulation::dequeue`, structurally recursive on fuel. -/
def Simulation.dequeue_go : Nat → Player → RandM Player
  | 0, p => pure p
  | fuel + 1, p =>
      if p.task_bar.is_done then do
        let old := p.task.getD (GTask.regular "" 0)
        let (p, brk) ← Simulation.completion_effect p old
        if brk then pure p
        else do
          let p ← Simulation.next_task p old
          Simulation.dequeue_go fuel p
      else pure p

/-- `Simulation::dequeue`. -/
def Simulation.dequeue (p : Player) : RandM Player :=
  Simulation.dequeue_go dequeueFuel p

/-- The local `enqueue` helper of `Simulation::cinematic`: push to the queue
tail, then run the dequeue loop. -/
def Simulation.enqueue (p : Player) (t : GTask) : RandM Player := do
  Simulation.dequeue { p with queue := p.queue ++ [t] }

/-- The `s % 3` beat of `Simulation::cinematic` branch 1's escalation
loop. -/
def Simulation.cineBeat (nemesis : String) (s : Nat) : GTask :=
  if s % 3 = 0 then GTask.regular ("Locked in grim combat with " ++ nemesis) 2000
  else if s % 3 = 1 then GTask.regular (nemesis ++ " seems to have the upper hand") 1000
  else GTask.regular ("You seem to gain the advantage over " ++ nemesis) 2000

/-- The escalating nemesis-beat loop of `Simulation::cinematic` branch 1
(`for i in 1.. { if i > below(act+2) break; ... }`), fuelled. -/
def Simulation.cineLoop (nemesis : String) : Nat → Nat → Nat → Player → RandM Player
  | 0, _i, _s, p => pure p
  | fuel + 1, i, s, p => do
      let b ← Rand.below (asUsize (1 + p.quest_book.act + 1))
      if b < i then pure p
      else do
        let inc ← Rand.below 2
        let s := s + 1 + inc
        let p ← Simulation.enqueue p (Simulation.cineBeat nemesis s)
        Simulation.cineLoop nemesis fuel (i + 1) s p

/-- `Simulation::cinematic`: one of three scripted beat sequences, then the
terminating "Loading Act N+1" plot task.  (Branch 0 passes a constant
1000 ms to `Task::regular`, ignoring the per-beat durations listed beside
the captions — as the source does.) -/
def Simulation.cinematic (p : Player) : RandM Player := do
  let c ← Rand.below 3
  let p ←
    match c with
    | 0 =>
        [("Exhausted, you arrive at a friendly oasis in a hostile land", 1000),
         ("You greet old friends and meet new allies", 2000),
         ("You are privy to a council of powerful do-gooders", 2000),
         ("There is much to be done, you are chosen!", 1000)].foldlM
          (fun p (beat : String × Nat) =>
            Simulation.enqueue p (GTask.regular beat.1 1000)) p
    | 1 => do
        let p ← Simulation.enqueue p
          (GTask.regular "Your quarry is in sigh, but a mightly enemy bars your path!" 1000)
        let nemesis ← named_monster (p.level + 3)
        let p ← Simulation.enqueue p
          (GTask.regular ("A desperate struggle commences with " ++ nemesis) 4000)
        let s ← Rand.below 3
        let p ← Simulation.cineLoop nemesis 4096 1 s p
        let p ← Simulation.enqueue p
          (GTask.regular ("Victory! " ++ nemesis ++ " is slain! Exhauted, you lose consciousness")
            3000)
        Simulation.enqueue p
          (GTask.regular "You awake in a friendly place, but the road awaits" 2000)
    | _ => do
        let nemesis ← impressive_npc
        [("Oh sweet relief! You\x27ve reached the protection of the good " ++ nemesis, 2000),
         ("There is rejoicing, and an unnerving encounter with " ++ nemesis ++ " in private", 3000),
         ("", 2000),
         ("What\x27s this!? Your overhead something shocking!", 2000),
         ("Could " ++ nemesis ++ " be a dirty double-dealer?", 2000),
         ("Who can possibly be trusted with this new?! ... Oh yes, of course.", 3000)].foldlM
          (fun p (beat : String × Nat) =>
            if beat.1 = "" then do
              let item ← boring_item
              Simulation.enqueue p
                (GTask.regular ("You forgot your " ++ item ++ " and go back to get it") beat.2)
            else Simulation.enqueue p (GTask.regular beat.1 beat.2)) p
  Simulation.enqueue p (GTask.plot ("Loading " ++ act_name (p.quest_book.act + 1)) 1000)

/-- `Simulation::complete_quest`: reset the quest meter to `50 +
below_low(1000)`, grant a uniformly chosen reward when a quest exists, clear
the tracked monster, and append a caption from the five templates. -/
def Simulation.complete_quest (p : Player) : RandM Player := do
  let d ← Rand.below_low 1000
  let p := { p with quest_book :=
    { p.quest_book with quest := p.quest_book.quest.reset (((50 + d : Nat) : ℚ)) } }
  let p ←
    if (QuestBook.current_quest p.quest_book).isSome then do
      let i ← Rand.below 4
      match i with
      | 0 => Player.choose_item p
      | 1 => Player.choose_spell p
      | 2 => Player.choose_equipment p
      | _ => Player.choose_stat p
    else pure p
  let p := { p with quest_book := { p.quest_book with monster := none } }
  let c ← Rand.below 5
  let (p, caption) ←
    match c with
    | 0 => do
        let m ← unnamed_monster p.level 3
        let caption := "Exterminate " ++ definite m.name 2
        pure ({ p with quest_book := { p.quest_book with monster := some m } }, caption)
    | 1 => do
        let it ← interesting_item
        pure (p, "Seek " ++ definite it 1)
    | 2 => do
        let it ← boring_item
        pure (p, "Deliver this " ++ it)
    | 3 => do
        let it ← boring_item
        pure (p, "Fetch me " ++ indefinite it 1)
    | _ => do
        let m ← unnamed_monster p.level 1
        pure (p, "Placate " ++ definite m.name 2)
  pure { p with quest_book := p.quest_book.add_quest caption }

/-- `Simulation::FLAVOR_TASKS`. -/
def Simulation.FLAVOR_TASKS : List (String × Nat) :=
  [("Experiencing an enigmatic and foreboding night vision", 10000),
   ("Much is revealed about the wise old man you\x27d underestimated", 6000),
   ("A shocking series of events leaves you alone and bewildered, but resolute", 6000),
   ("Drawing upon an unrealized reserve of determination, you set out on a long and dangerous journey",
    4000)]

/-- `Simulation::tick`, with the wall-clock delta (already multiplied by the
time scale) passed in as `dt`: accumulate elapsed time; bootstrap when no
task is active; advance an incomplete task bar; otherwise run the
experience / quest / plot progression for Kill tasks and dequeue. -/
def Simulation.tick (dt : ℚ) (p : Player) : RandM Player := do
  let p := { p with elapsed := p.elapsed + dt }
  if p.task.isNone then
    let p := p.set_task (GTask.regular "Loading" 2000)
    let p := { p with queue :=
      p.queue ++ Simulation.FLAVOR_TASKS.map (fun (x : String × Nat) => GTask.regular x.1 x.2) }
    let p := { p with queue := p.queue ++ [GTask.plot ("Loading " ++ act_name 1) 2000] }
    pure { p with quest_book := { p.quest_book with plot := p.quest_book.plot.reset 28 } }
  else if p.task_bar.is_done = false then
    pure { p with task_bar := p.task_bar.increment dt }
  else do
    let gain :=
      match p.task with
      | some t =>
          match t.kind with
          | TaskKind.Kill _ => true
          | _ => false
      | none => false
    if gain = false then Simulation.dequeue p
    else do
      let p ←
        if p.exp_bar.is_done then Player.level_up p
        else pure { p with exp_bar := p.exp_bar.increment p.task_bar.max }
      let p ←
        if 1 ≤ p.quest_book.act then
          if p.quest_book.quest.is_done
              || (QuestBook.current_quest p.quest_book).isNone then
            Simulation.complete_quest p
          else
            pure { p with quest_book :=
              { p.quest_book with quest := p.quest_book.quest.increment p.task_bar.max } }
        else pure p
      let p ←
        if p.quest_book.plot.is_done then Simulation.cinematic p
        else
          pure { p with quest_book :=
            { p.quest_book with plot := p.quest_book.plot.increment p.task_bar.max } }
      Simulation.dequeue p

/-- A whole session: fold `tick` over a list of elapsed-time deltas,
collecting the Player snapshot after every tick. -/
def Simulation.tickTrace (p : Player) (g : Rng) (ds : List ℚ) : List Player :=
  (ds.foldl
    (fun (acc : List Player × (Player × Rng)) d =>
      let st := (Simulation.tick d acc.2.1).run acc.2.2
      (acc.1 ++ [st.1], st))
    ([], (p, g))).1

/-! ## Concrete fixtures used by the claim checks -/

/-- The all-zeros draw tape (a legitimate generator state: every raw draw
reduces to 0). -/
def zeroRng : Rng := Rng.mk (fun _ => 0) 0

/-- A finite script of raw draws (0 beyond the end). -/
def listRng (l : List Nat) : Rng := Rng.mk (fun i => l.getD i 0) 0

/-- Concrete tied stats: Strength and Condition both maximal, Strength first
in iteration order. -/
def tieStats : Stats := Stats.mk [(Stat.Strength, 5), (Stat.Condition, 5), (Stat.Dexterity, 0)]

/-- A concrete Player snapshot. -/
def demoPlayer : Player :=
  Player.new "Hero" (Race.mk "human") (CClass.mk "fighter")
    (Stats.mk (ALL_STATS.map (fun s => (s, 2))))

/-- A level-1 Player who just finished a Sell task with inventory
`[alpha x5, beta x2]`. -/
def sellDemoPlayer : Player :=
  { demoPlayer with
      inventory := ((Inventory.new 12).add_item "alpha" 5).add_item "beta" 2,
      task := some (GTask.sell "Selling the loot" 1000),
      task_bar := Bar.mk 1 1 }

/-- Raw-draw script for the positive-severity-gap scenario: the level walk
stays at 20 (draws of 2 make every `odds(2,5)` fail), the NPC roll misses,
and the quest-monster roll hits. -/
def c4Stream : Nat → Nat := fun i => (List.replicate 20 2 ++ [3, 0]).getD i 0

/-- Generator state for the positive-severity-gap scenario. -/
def c4Rng : Rng := Rng.mk c4Stream 0

/-- Raw-draw script for the swarm-scaling scenario: level walk stays at 25,
NPC roll misses, the closest-of-N draws all pick the level-2 giant rat, and
the swarm draw is 0. -/
def c5Stream : Nat → Nat :=
  fun i => (List.replicate 25 2 ++ [3] ++ List.replicate 6 0 ++ [0]).getD i 0

/-- Generator state for the swarm-scaling scenario. -/
def c5Rng : Rng := Rng.mk c5Stream 0

/-! ## Helper lemmas -/

/-- The fold of `maxPick` stays within the candidates. -/
theorem maxFold_mem (f : α → Nat) (a : α) (l : List α) :
    l.foldl (maxPick f) a ∈ a :: l := by
  induction l generalizing a with
  | nil => simp
  | cons y ys ih =>
      simp only [List.foldl_cons]
      by_cases hc : f a ≤ f y
      · rw [show maxPick f a y = y from if_pos hc]
        rcases List.mem_cons.mp (ih y) with h | h
        · rw [h]; exact List.mem_cons.mpr (Or.inr (List.mem_cons_self _ _))
        · exact List.mem_cons.mpr (Or.inr (List.mem_cons.mpr (Or.inr h)))
      · rw [show maxPick f a y = a from if_neg hc]
        rcases List.mem_cons.mp (ih a) with h | h
        · rw [h]; exact List.mem_cons_self _ _
        · exact List.mem_cons.mpr (Or.inr (List.mem_cons.mpr (Or.inr h)))

/-- The fold of `maxPick` dominates every candidate's key. -/
theorem maxFold_ge (f : α → Nat) (a : α) (l : List α) :
    ∀ y ∈ a :: l, f y ≤ f (l.foldl (maxPick f) a) := by
  induction l generalizing a with
  | nil =>
      intro y hy
      simp only [List.mem_singleton] at hy
      simp [hy]
  | cons z zs ih =>
      intro y hy
      simp only [List.foldl_cons]
      have hb1 : f a ≤ f (maxPick f a z) := by
        by_cases hc : f a ≤ f z <;> simp [maxPick, hc]
      have hb2 : f z ≤ f (maxPick f a z) := by
        by_cases hc : f a ≤ f z <;> simp [maxPick, hc]
        exact le_of_not_le hc
      have hbrec : f (maxPick f a z) ≤ f (zs.foldl (maxPick f) (maxPick f a z)) :=
        ih (maxPick f a z) _ (List.mem_cons_self _ _)
      rcases List.mem_cons.mp hy with rfl | hy
      · exact le_trans hb1 hbrec
      rcases List.mem_cons.mp hy with rfl | hy
      · exact le_trans hb2 hbrec
      · exact ih (maxPick f a z) _ (List.mem_cons_of_mem _ hy)

/-- Appending an element whose key dominates the list makes it the
`max_by_key` result (the last-maximum-wins rule). -/
theorem maxByKeyLast_append_big (f : α → Nat) (l : List α) (x : α)
    (h : ∀ y ∈ l, f y ≤ f x) : maxByKeyLast f (l ++ [x]) = some x := by
  cases l with
  | nil => simp [maxByKeyLast]
  | cons y ys =>
      simp only [List.cons_append, maxByKeyLast, List.foldl_append, List.foldl_cons,
        List.foldl_nil, Option.some.injEq]
      have hr := maxFold_mem f y ys
      have hle : f (ys.foldl (maxPick f) y) ≤ f x := h _ hr
      exact if_pos hle

/-- The eviction loop always leaves at most 99 entries. -/
theorem evict_length_le (l : List String) : (QuestBook.evict l).length ≤ 99 := by
  induction l with
  | nil => simp [QuestBook.evict]
  | cons x xs ih =>
      rw [QuestBook.evict]
      by_cases hc : QuestBook.MAX_QUESTS ≤ (x :: xs).length
      · rw [if_pos hc]; exact ih
      · rw [if_neg hc]
        simp [QuestBook.MAX_QUESTS] at hc
        simpa using Nat.lt_succ_iff.mp (by simpa using hc)

/-- Running one `below` draw: the raw cell reduced modulo `num`, cursor
advanced. -/
theorem below_run (n : Nat) (g : Rng) :
    (Rand.below n).run g
      = (if n = 0 then 0 else g.stream g.idx % n, Rng.mk g.stream (g.idx + 1)) := rfl

/-- A `below` draw is always in range for a positive bound. -/
theorem below_lt {n : Nat} (hn : 0 < n) (g : Rng) : ((Rand.below n).run g).1 < n := by
  rw [below_run]
  simp only [Nat.pos_iff_ne_zero] at hn
  simp [hn]
  exact Nat.mod_lt _ (Nat.pos_of_ne_zero hn)

/-- `asIsize` lands in the `isize` range. -/
theorem asIsize_bounds (x : Int) :
    -9223372036854775808 ≤ asIsize x ∧ asIsize x < 9223372036854775808 := by
  unfold asIsize
  constructor
  · have := Int.emod_nonneg (x + 9223372036854775808)
      (by norm_num : (18446744073709551616 : Int) ≠ 0)
    omega
  · have := Int.emod_lt_of_pos (x + 9223372036854775808)
      (by norm_num : (0 : Int) < 18446744073709551616)
    omega

/-- `asUsize` on an in-range value is `toNat`. -/
theorem asUsize_eq_toNat {x : Int} (h1 : 0 ≤ x) (h2 : x < 18446744073709551616) :
    asUsize x = x.toNat := by
  unfold asUsize
  rw [Int.emod_eq_of_lt h1 h2]

/-- The level random walk moves up by at most one per iteration. -/
theorem perturb_le (n : Nat) (L : Int) (g : Rng) :
    ((perturb n L).run g).1 ≤ L + n := by
  induction n generalizing L g with
  | zero => simp [perturb, StateT.run_pure]
  | succ n ih =>
      rw [perturb, StateT.run_bind]
      rcases hodds : (Rand.odds 2 5).run g with ⟨b, g1⟩
      simp only [Id.bind_eq]
      cases b
      · rw [if_neg (by simp), StateT.run_bind, StateT.run_pure]
        simp only [Id.bind_eq, Id.pure_eq]
        have := ih L g1
        omega
      · rw [if_pos rfl, StateT.run_bind]
        rcases hb : (Rand.below 2).run g1 with ⟨d, g2⟩
        have hd : d < 2 := by
          have h2 := below_lt (by norm_num : 0 < 2) g1
          rw [hb] at h2
          exact h2
        simp only [Id.bind_eq, Id.pure_eq, StateT.run_bind, StateT.run_pure]
        have := ih (L + ((d : Int) * 2 - 1)) g2
        omega

/-- On the all-zeros tape every walk iteration decrements the level and
consumes two draws. -/
theorem perturb_zero (n : Nat) (L : Int) (i : Nat) :
    (perturb n L).run (Rng.mk (fun _ => 0) i)
      = (L - n, Rng.mk (fun _ => 0) (i + 2 * n)) := by
  induction n generalizing L i with
  | zero =>
      rw [show (perturb 0 L).run (Rng.mk (fun _ => 0) i)
          = (L, Rng.mk (fun _ => 0) i) from rfl]
      norm_num
  | succ n ih =>
      have h1 : (perturb (n + 1) L).run (Rng.mk (fun _ => 0) i)
          = (perturb n (L + ((0 : Int) * 2 - 1))).run (Rng.mk (fun _ => 0) (i + 2)) := rfl
      rw [h1, ih]
      have hfst : L + ((0 : Int) * 2 - 1) - (n : Int) = L - ((n : Nat) + 1 : Nat) := by
        push_cast
        ring
      have hsnd : i + 2 + 2 * n = i + 2 * (n + 1) := by omega
      rw [hfst, hsnd]

/-- On a tape whose next `n` raw draws all fail `odds(2,5)`, the walk keeps
the level and consumes one draw per iteration. -/
theorem perturb_skip (s : Nat → Nat) (n : Nat) (L : Int) (i : Nat)
    (h : ∀ k, k < n → ¬ s (i + k) % 5 < 2) :
    (perturb n L).run (Rng.mk s i) = (L, Rng.mk s (i + n)) := by
  induction n generalizing L i with
  | zero => rfl
  | succ n ih =>
      rw [perturb, StateT.run_bind]
      have hodds : (Rand.odds 2 5).run (Rng.mk s i)
          = (decide (s i % 5 < 2), Rng.mk s (i + 1)) := rfl
      have hdec : decide (s i % 5 < 2) = false :=
        decide_eq_false (h 0 (Nat.succ_pos n))
      simp only [Id.bind_eq, hodds, hdec, Bool.false_eq_true, if_false,
        StateT.run_bind, StateT.run_pure, Id.pure_eq]
      have hsh : ∀ k, k < n → ¬ s (i + 1 + k) % 5 < 2 := by
        intro k hk
        have := h (k + 1) (by omega)
        rw [show i + (k + 1) = i + 1 + k by omega] at this
        exact this
      rw [ih L (i + 1) hsh]
      rw [show i + 1 + n = i + (n + 1) by omega]

/-- The swarm quantity before the `max 1` clamp never exceeds the encounter
level. -/
theorem swarm_q_le (enc t' d : Int) (henc : 1 ≤ enc) (ht : 1 ≤ t') (hd : 0 ≤ d)
    (hdt : d < t') : (enc + d).tdiv t' ≤ enc := by
  rw [Int.tdiv_eq_ediv (by omega) (by omega)]
  have h1 : enc + d ≤ (t' - 1) + t' * enc := by nlinarith
  have h2 : (enc + d) / t' ≤ ((t' - 1) + t' * enc) / t' := Int.ediv_le_ediv (by omega) h1
  have h3 : ((t' - 1) + t' * enc) / t' = (t' - 1) / t' + enc :=
    Int.add_mul_ediv_left (t' - 1) enc (by omega)
  have h4 : (t' - 1) / t' = 0 := Int.ediv_eq_zero_of_lt (by omega) (by omega)
  omega

/-- Truncated division of the encounter level by an in-range quantity:
positivity, and the remainder bound that measures the lost threat. -/
theorem tdiv_facts (enc q : Int) (henc : 1 ≤ enc) (hq1 : 1 ≤ q) (hqe : q ≤ enc) :
    1 ≤ enc.tdiv q ∧ enc.tdiv q * q ≤ enc ∧ enc < enc.tdiv q * q + q := by
  rw [Int.tdiv_eq_ediv (by omega) (by omega)]
  refine ⟨?_, ?_, ?_⟩
  · rw [Int.le_ediv_iff_mul_le (by omega : (0 : Int) < q)]
    omega
  · exact Int.ediv_mul_le enc (by omega)
  · have h := Int.lt_ediv_add_one_mul_self enc (by omega : (0 : Int) < q)
    have h5 : (enc / q + 1) * q = enc / q * q + q := by ring
    linarith

/-- Structural invariants of the encounter synthesis, for every player
level, quest monster and generator state: the clamped encounter level is
positive and bounded by the walk, the quantity is positive, the
total-after-division stays within `[1, encounter level]`, and the swarm /
non-swarm branches record exactly the source's arithmetic. -/
theorem monsterNumbers_inv (pl : Int) (qm : Option Monster) (g : Rng) :
    1 ≤ ((monsterNumbers pl qm).run g).1.encLevel
    ∧ ((monsterNumbers pl qm).run g).1.encLevel ≤ max (pl + pl.toNat) 1
    ∧ 1 ≤ ((monsterNumbers pl qm).run g).1.qty
    ∧ 1 ≤ ((monsterNumbers pl qm).run g).1.dividedLevel * ((monsterNumbers pl qm).run g).1.qty
    ∧ ((monsterNumbers pl qm).run g).1.dividedLevel * ((monsterNumbers pl qm).run g).1.qty
        ≤ ((monsterNumbers pl qm).run g).1.encLevel
    ∧ (10 < ((monsterNumbers pl qm).run g).1.encLevel
          - ((monsterNumbers pl qm).run g).1.taskLevel →
        ((monsterNumbers pl qm).run g).1.qty
            = max ((((monsterNumbers pl qm).run g).1.encLevel
                + ((monsterNumbers pl qm).run g).1.swarmDraw).tdiv
                  (max ((monsterNumbers pl qm).run g).1.taskLevel 1)) 1
        ∧ 0 ≤ ((monsterNumbers pl qm).run g).1.swarmDraw
        ∧ ((monsterNumbers pl qm).run g).1.swarmDraw
            < max ((monsterNumbers pl qm).run g).1.taskLevel 1
        ∧ ((monsterNumbers pl qm).run g).1.dividedLevel
            = ((monsterNumbers pl qm).run g).1.encLevel.tdiv
                ((monsterNumbers pl qm).run g).1.qty
        ∧ ((monsterNumbers pl qm).run g).1.encLevel
            < ((monsterNumbers pl qm).run g).1.dividedLevel
                * ((monsterNumbers pl qm).run g).1.qty
                + ((monsterNumbers pl qm).run g).1.qty)
    ∧ (¬ 10 < ((monsterNumbers pl qm).run g).1.encLevel
          - ((monsterNumbers pl qm).run g).1.taskLevel →
        ((monsterNumbers pl qm).run g).1.qty = 1
        ∧ ((monsterNumbers pl qm).run g).1.dividedLevel
            = ((monsterNumbers pl qm).run g).1.encLevel) := by
  unfold monsterNumbers
  rw [StateT.run_bind]
  rcases hp : (perturb pl.toNat pl).run g with ⟨P, g1⟩
  have hPle : P ≤ pl + pl.toNat := by
    have h := perturb_le pl.toNat pl g
    rw [hp] at h
    exact h
  simp only [Id.bind_eq, hp, StateT.run_bind]
  rcases ho : (Rand.odds 1 25).run g1 with ⟨npc, g2⟩
  simp only [Id.bind_eq, ho]
  cases npc
  · -- monster path (quest or unnamed)
    rw [if_neg (by simp)]
    rcases qm with _ | q0
    · -- no quest-tracked monster: unnamed-monster path
      rw [show (Option.isSome (none : Option Monster)) = false from rfl]
      rw [if_neg (by simp)]
      simp only [StateT.run_pure, Id.pure_eq, StateT.run_bind]
      rcases hm : (unnamed_monster (asUsize (P ⊔ 1)) 5).run g2 with ⟨m, g3⟩
      simp only [Id.bind_eq, hm, StateT.run_pure, Id.pure_eq]
      by_cases hsw : (10 : Int) < P ⊔ 1 - asIsize ((m.level : Int))
      · rw [if_pos hsw]
        simp only [StateT.run_bind]
        rcases hd : (Rand.below (asUsize (asIsize ((m.level : Int)) ⊔ 1))).run g3 with ⟨d, gd⟩
        have hb := asIsize_bounds ((m.level : Int))
        have htoNat : asUsize (asIsize ((m.level : Int)) ⊔ 1) = (asIsize ((m.level : Int)) ⊔ 1).toNat :=
          asUsize_eq_toNat (by omega) (by omega)
        have hpos : 0 < asUsize (asIsize ((m.level : Int)) ⊔ 1) := by
          rw [htoNat]
          omega
        have hdlt := below_lt hpos g3
        rw [hd] at hdlt
        have hdlt2 : (d : Int) < asIsize ((m.level : Int)) ⊔ 1 := by
          rw [htoNat] at hdlt
          omega
        simp only [Id.bind_eq, hd, StateT.run_pure, Id.pure_eq, swarmScale]
        have henc1 : (1 : Int) ≤ P ⊔ 1 := le_max_right _ _
        have hq0 : (P ⊔ 1 + (d : Int)).tdiv (asIsize ((m.level : Int)) ⊔ 1) ≤ P ⊔ 1 :=
          swarm_q_le _ _ _ henc1 (le_max_right _ _) (Int.natCast_nonneg d) hdlt2
        have hq1 : (1 : Int) ≤ (P ⊔ 1 + (d : Int)).tdiv (asIsize ((m.level : Int)) ⊔ 1) ⊔ 1 :=
          le_max_right _ _
        have hqe : (P ⊔ 1 + (d : Int)).tdiv (asIsize ((m.level : Int)) ⊔ 1) ⊔ 1 ≤ P ⊔ 1 := by omega
        have hfacts := tdiv_facts (P ⊔ 1)
          ((P ⊔ 1 + (d : Int)).tdiv (asIsize ((m.level : Int)) ⊔ 1) ⊔ 1) henc1 hq1 hqe
        refine ⟨by omega, by omega, by omega, ?_, ?_, ?_, ?_⟩
        · nlinarith [hfacts.1, hq1]
        · exact hfacts.2.1
        · intro hx
          refine ⟨?_, Int.natCast_nonneg d, hdlt2, ?_, hfacts.2.2⟩
          · first | rfl | trivial
          · first | rfl | trivial
        · intro hx
          exact absurd hsw hx
      · rw [if_neg hsw]
        simp only [StateT.run_pure, Id.pure_eq, StateT.run_bind, Id.bind_eq]
        refine ⟨?_, ?_, ?_, ?_, ?_, ?_, ?_⟩ <;>
          first
            | omega
            | (simp only [mul_one]; omega)
            | (intro hx; first | exact absurd hx hsw | exact ⟨rfl, rfl⟩ | trivial)
            | trivial
    · -- quest-tracked monster exists
      rw [show (Option.isSome (some q0)) = true from rfl]
      rw [if_pos rfl]
      simp only [StateT.run_bind]
      rcases hq4 : (Rand.odds 1 4).run g2 with ⟨b4, g3⟩
      simp only [Id.bind_eq, hq4]
      cases b4
      · -- 3-in-4: fall through to the unnamed-monster path
        simp only [StateT.run_bind]
        rcases hm : (unnamed_monster (asUsize (P ⊔ 1)) 5).run g3 with ⟨m, g4⟩
        simp only [Id.bind_eq, hm, StateT.run_pure, Id.pure_eq]
        by_cases hsw : (10 : Int) < P ⊔ 1 - asIsize ((m.level : Int))
        · rw [if_pos hsw]
          simp only [StateT.run_bind]
          rcases hd : (Rand.below (asUsize (asIsize ((m.level : Int)) ⊔ 1))).run g4 with ⟨d, gd⟩
          have hb := asIsize_bounds ((m.level : Int))
          have htoNat : asUsize (asIsize ((m.level : Int)) ⊔ 1) = (asIsize ((m.level : Int)) ⊔ 1).toNat :=
            asUsize_eq_toNat (by omega) (by omega)
          have hpos : 0 < asUsize (asIsize ((m.level : Int)) ⊔ 1) := by
            rw [htoNat]
            omega
          have hdlt := below_lt hpos g4
          rw [hd] at hdlt
          have hdlt2 : (d : Int) < asIsize ((m.level : Int)) ⊔ 1 := by
            rw [htoNat] at hdlt
            omega
          simp only [Id.bind_eq, hd, StateT.run_pure, Id.pure_eq, swarmScale]
          have henc1 : (1 : Int) ≤ P ⊔ 1 := le_max_right _ _
          have hq0 : (P ⊔ 1 + (d : Int)).tdiv (asIsize ((m.level : Int)) ⊔ 1) ≤ P ⊔ 1 :=
            swarm_q_le _ _ _ henc1 (le_max_right _ _) (Int.natCast_nonneg d) hdlt2
          have hq1 : (1 : Int) ≤ (P ⊔ 1 + (d : Int)).tdiv (asIsize ((m.level : Int)) ⊔ 1) ⊔ 1 :=
            le_max_right _ _
          have hqe : (P ⊔ 1 + (d : Int)).tdiv (asIsize ((m.level : Int)) ⊔ 1) ⊔ 1 ≤ P ⊔ 1 := by omega
          have hfacts := tdiv_facts (P ⊔ 1)
            ((P ⊔ 1 + (d : Int)).tdiv (asIsize ((m.level : Int)) ⊔ 1) ⊔ 1) henc1 hq1 hqe
          refine ⟨by omega, by omega, by omega, ?_, ?_, ?_, ?_⟩
          · nlinarith [hfacts.1, hq1]
          · exact hfacts.2.1
          · intro hx
            refine ⟨?_, Int.natCast_nonneg d, hdlt2, ?_, hfacts.2.2⟩
            · first | rfl | trivial
            · first | rfl | trivial
          · intro hx
            exact absurd hsw hx
        · rw [if_neg hsw]
          simp only [StateT.run_pure, Id.pure_eq, StateT.run_bind, Id.bind_eq]
          refine ⟨?_, ?_, ?_, ?_, ?_, ?_, ?_⟩ <;>
            first
              | omega
              | (simp only [mul_one]; omega)
              | (intro hx; first | exact absurd hx hsw | exact ⟨rfl, rfl⟩ | trivial)
              | trivial
      · -- reuse the quest monster verbatim
        simp only [StateT.run_bind, StateT.run_pure, Id.bind_eq, Id.pure_eq]
        by_cases hsw : (10 : Int) < P ⊔ 1 - asIsize ((q0.level : Int))
        · rw [if_pos hsw]
          simp only [StateT.run_bind]
          rcases hd : (Rand.below (asUsize (asIsize ((q0.level : Int)) ⊔ 1))).run g3 with ⟨d, gd⟩
          have hb := asIsize_bounds ((q0.level : Int))
          have htoNat : asUsize (asIsize ((q0.level : Int)) ⊔ 1) = (asIsize ((q0.level : Int)) ⊔ 1).toNat :=
            asUsize_eq_toNat (by omega) (by omega)
          have hpos : 0 < asUsize (asIsize ((q0.level : Int)) ⊔ 1) := by
            rw [htoNat]
            omega
          have hdlt := below_lt hpos g3
          rw [hd] at hdlt
          have hdlt2 : (d : Int) < asIsize ((q0.level : Int)) ⊔ 1 := by
            rw [htoNat] at hdlt
            omega
          simp only [Id.bind_eq, hd, StateT.run_pure, Id.pure_eq, swarmScale]
          have henc1 : (1 : Int) ≤ P ⊔ 1 := le_max_right _ _
          have hq0 : (P ⊔ 1 + (d : Int)).tdiv (asIsize ((q0.level : Int)) ⊔ 1) ≤ P ⊔ 1 :=
            swarm_q_le _ _ _ henc1 (le_max_right _ _) (Int.natCast_nonneg d) hdlt2
          have hq1 : (1 : Int) ≤ (P ⊔ 1 + (d : Int)).tdiv (asIsize ((q0.level : Int)) ⊔ 1) ⊔ 1 :=
            le_max_right _ _
          have hqe : (P ⊔ 1 + (d : Int)).tdiv (asIsize ((q0.level : Int)) ⊔ 1) ⊔ 1 ≤ P ⊔ 1 := by omega
          have hfacts := tdiv_facts (P ⊔ 1)
            ((P ⊔ 1 + (d : Int)).tdiv (asIsize ((q0.level : Int)) ⊔ 1) ⊔ 1) henc1 hq1 hqe
          refine ⟨by omega, by omega, by omega, ?_, ?_, ?_, ?_⟩
          · nlinarith [hfacts.1, hq1]
          · exact hfacts.2.1
          · intro hx
            refine ⟨?_, Int.natCast_nonneg d, hdlt2, ?_, hfacts.2.2⟩
            · first | rfl | trivial
            · first | rfl | trivial
          · intro hx
            exact absurd hsw hx
        · rw [if_neg hsw]
          simp only [StateT.run_pure, Id.pure_eq, StateT.run_bind, Id.bind_eq]
          refine ⟨?_, ?_, ?_, ?_, ?_, ?_, ?_⟩ <;>
            first
              | omega
              | (simp only [mul_one]; omega)
              | (intro hx; first | exact absurd hx hsw | exact ⟨rfl, rfl⟩ | trivial)
              | trivial
  · -- NPC path: task_level = encounter level, swarm never triggers
    rw [if_pos rfl]
    simp only [StateT.run_bind]
    rcases hr : (Rand.choice RACES (Race.mk "")).run g2 with ⟨race, g3⟩
    simp only [Id.bind_eq, hr, StateT.run_bind]
    rcases hh : (Rand.odds 1 2).run g3 with ⟨half, g4⟩
    simp only [Id.bind_eq, hh]
    cases half
    · rw [if_neg (by simp)]
      simp only [StateT.run_bind]
      rcases ht : (Rand.choice_low TITLES "").run g4 with ⟨title, g5⟩
      simp only [Id.bind_eq, ht, StateT.run_bind]
      rcases hn : (generate_name none).run g5 with ⟨nm, g6⟩
      simp only [Id.bind_eq, hn, StateT.run_pure, Id.pure_eq]
      rw [if_neg (by omega)]
      simp only [StateT.run_bind, StateT.run_pure, Id.bind_eq, Id.pure_eq]
      refine ⟨?_, ?_, ?_, ?_, ?_, ?_, ?_⟩ <;>
        first
          | omega
          | (simp only [mul_one]; omega)
          | (intro hx; first | omega | exact ⟨rfl, rfl⟩ | trivial)
          | trivial
    · rw [if_pos rfl]
      simp only [StateT.run_bind]
      rcases hc : (Rand.choice CLASSES (CClass.mk "")).run g4 with ⟨cls, g5⟩
      simp only [Id.bind_eq, hc, StateT.run_pure, Id.pure_eq]
      rw [if_neg (by omega)]
      simp only [StateT.run_bind, StateT.run_pure, Id.bind_eq, Id.pure_eq]
      refine ⟨?_, ?_, ?_, ?_, ?_, ?_, ?_⟩ <;>
        first
          | omega
          | (simp only [mul_one]; omega)
          | (intro hx; first | omega | exact ⟨rfl, rfl⟩ | trivial)
          | trivial

/-- The outcome record of `monsterCore` agrees field-by-field with the
numeric stage, and its derived `total` and duration are the source
formulas. -/
theorem monsterCore_fields (pl : Int) (qm : Option Monster) (g : Rng) :
    ((monsterCore pl qm).run g).1.encLevel = ((monsterNumbers pl qm).run g).1.encLevel
    ∧ ((monsterCore pl qm).run g).1.taskLevel = ((monsterNumbers pl qm).run g).1.taskLevel
    ∧ ((monsterCore pl qm).run g).1.qty = ((monsterNumbers pl qm).run g).1.qty
    ∧ ((monsterCore pl qm).run g).1.swarmDraw = ((monsterNumbers pl qm).run g).1.swarmDraw
    ∧ ((monsterCore pl qm).run g).1.dividedLevel
        = ((monsterNumbers pl qm).run g).1.dividedLevel
    ∧ ((monsterCore pl qm).run g).1.total
        = ((monsterNumbers pl qm).run g).1.dividedLevel * ((monsterNumbers pl qm).run g).1.qty
    ∧ ((monsterCore pl qm).run g).1.durationMs
        = asU64 ((2 * 3 * (((monsterNumbers pl qm).run g).1.dividedLevel
            * ((monsterNumbers pl qm).run g).1.qty) * 1000).tdiv pl) := by
  unfold monsterCore
  rw [StateT.run_bind]
  rcases hn : (monsterNumbers pl qm).run g with ⟨n, g1⟩
  simp only [Id.bind_eq, hn, StateT.run_bind]
  rcases hs : (severityPhrase (n.dividedLevel - n.taskLevel) n.baseName).run g1 with ⟨sp, g2⟩
  simp only [Id.bind_eq, hs, StateT.run_pure, Id.pure_eq]
  refine ⟨?_, ?_, ?_, ?_, ?_, ?_, ?_⟩ <;> first | rfl | trivial

/-- The numeric stage at player level 6001 on the all-zeros tape: the walk
drags the encounter level to the clamp (1), the NPC branch is taken, and no
swarm scaling happens. -/
theorem monsterNumbers_6001 :
    (monsterNumbers 6001 none).run zeroRng
      = (MonsterNumbers.mk 0 1 1 false ("passing " ++ "human" ++ " " ++ "fighter") none
          1 0 1, Rng.mk (fun _ => 0) 12006) := by
  unfold monsterNumbers
  rw [StateT.run_bind]
  have hcast : ((6001 : Int).toNat) = 6001 := rfl
  have hz : zeroRng = Rng.mk (fun _ => 0) 0 := rfl
  rw [hz, hcast, perturb_zero 6001 6001 0]
  rfl

/-- The numeric stage of the positive-gap scenario: encounter level 20
against the level-17 quest goblin, no swarm. -/
theorem monsterNumbers_c4_eval :
    (monsterNumbers 20 (some (Monster.mk "goblin" 17 none))).run c4Rng
      = (MonsterNumbers.mk 20 20 17 false "goblin" (some (Monster.mk "goblin" 17 none)) 1 0 20,
         Rng.mk c4Stream 22) := by
  unfold monsterNumbers
  rw [StateT.run_bind]
  have hc4 : c4Rng = Rng.mk c4Stream 0 := rfl
  have hcast : ((20 : Int).toNat) = 20 := rfl
  rw [hc4, hcast, perturb_skip c4Stream 20 20 0 (by decide)]
  rfl

/-- The full outcome of the positive-gap scenario. -/
theorem monsterCore_c4_eval :
    (monsterCore 20 (some (Monster.mk "goblin" 17 none))).run c4Rng
      = (MonsterOutcome.mk 20 20 17 false "goblin" (some (Monster.mk "goblin" 17 none))
          1 0 20 3 "unreal goblin" "an unreal goblin" 20 "Attacking an unreal goblin" 6000,
         Rng.mk c4Stream 22) := by
  unfold monsterCore
  rw [StateT.run_bind, monsterNumbers_c4_eval]
  rfl

/-- The numeric stage of the swarm scenario: encounter level 25 against the
level-2 giant rat, quantity 12, per-unit level 2. -/
theorem monsterNumbers_c5_eval :
    (monsterNumbers 25 none).run c5Rng
      = (MonsterNumbers.mk 25 25 2 false "giant rat"
          (some (Monster.mk "giant rat" 2 (some "tail"))) 12 0 2,
         Rng.mk c5Stream 33) := by
  unfold monsterNumbers
  rw [StateT.run_bind]
  have hc5 : c5Rng = Rng.mk c5Stream 0 := rfl
  have hcast : ((25 : Int).toNat) = 25 := rfl
  rw [hc5, hcast, perturb_skip c5Stream 25 25 0 (by decide)]
  rfl

/-- The full outcome of the swarm scenario. -/
theorem monsterCore_c5_eval :
    (monsterCore 25 none).run c5Rng
      = (MonsterOutcome.mk 25 25 2 false "giant rat"
          (some (Monster.mk "giant rat" 2 (some "tail")))
          12 0 2 0 "unreal giant rat" "12 unreal giant rats" 24
          "Attacking 12 unreal giant rats" 5760,
         Rng.mk c5Stream 33) := by
  unfold monsterCore
  rw [StateT.run_bind, monsterNumbers_c5_eval]
  rfl

/-! ## Claim theorems -/

/-- C10: for every `Bar` and every `x ≥ 0`, `increment x` sets `pos` to
`min(old pos + x, max)`; `is_done()` holds iff `pos ≥ max`; and `reset m`
yields `pos = 0`, `max = m`. -/
theorem bar_increment_min_isdone_reset (b : Bar) (x m : ℚ) (hx : 0 ≤ x) :
    (b.increment x).pos = min (b.pos + x) b.max
    ∧ (b.is_done = true ↔ b.max ≤ b.pos)
    ∧ (b.reset m).pos = 0 ∧ (b.reset m).max = m := by
  refine ⟨rfl, ?_, rfl, rfl⟩
  simp [Bar.is_done]

/-- Witness for C10 at `Bar {pos 1, max 5}`, `x = 2`, `m = 7`. -/
theorem bar_increment_min_isdone_reset_witness :
    (0 : ℚ) ≤ 2
    ∧ (((Bar.mk 1 5).increment 2).pos = min ((1 : ℚ) + 2) 5
      ∧ ((Bar.mk 1 5).is_done = true ↔ (5 : ℚ) ≤ 1)
      ∧ ((Bar.mk 1 5).reset 7).pos = 0 ∧ ((Bar.mk 1 5).reset 7).max = 7) :=
  ⟨by norm_num, bar_increment_min_isdone_reset (Bar.mk 1 5) 2 7 (by norm_num)⟩

/-- C1 (failing input): on a capacity-12 inventory, `add_item("Sword",1)`
then `add_item("Sword",2)` merges into a single quantity-3 entry as
claimed, but the encumbrance meter's `pos` stays at 1 — the merge path of
`add_item` returns before `update_bar` — instead of the claimed quantity
sum 3. -/
theorem inventory_merge_skips_encumbrance :
    (((Inventory.new 12).add_item "Sword" 1).add_item "Sword" 2).items
        = [InventoryItem.mk "Sword" 3]
    ∧ (((Inventory.new 12).add_item "Sword" 1).add_item "Sword" 2).quantitySum = 3
    ∧ (((Inventory.new 12).add_item "Sword" 1).add_item "Sword" 2).encumbrance.pos = 1
    ∧ ((1 : ℚ) ≠ 3) := by decide

/-- C2 (failing input): completing a Sell task over inventory
`[alpha x5, beta x2]` at player level 1 credits 5 gold — the FIRST entry's
quantity times the level — while the entry actually removed is the LAST
(`beta`, whose quantity times level is 2), and the follow-up task shows the
remaining `alpha` stack. -/
theorem sell_prices_first_item_but_pops_last :
    ((Simulation.dequeue sellDemoPlayer).run zeroRng).1.inventory.gold = 5
    ∧ ((Simulation.dequeue sellDemoPlayer).run zeroRng).1.inventory.items
        = [InventoryItem.mk "alpha" 5]
    ∧ (sellDemoPlayer.inventory.items.getD 0 (InventoryItem.mk "" 0)).quantity
        * sellDemoPlayer.level = 5
    ∧ (sellDemoPlayer.inventory.items.getD (sellDemoPlayer.inventory.len - 1)
        (InventoryItem.mk "" 0)).quantity * sellDemoPlayer.level = 2
    ∧ (5 : Int) ≠ 2
    ∧ ((Simulation.dequeue sellDemoPlayer).run zeroRng).1.task
        = some (GTask.sell "Selling 5 alphas" 1000) := by
  refine ⟨by decide, by decide, by decide, by decide, by decide, by decide⟩

/-- C3 (counterexample): with Strength and Condition tied for the maximum
and Strength first in iteration order, `best()` and `best_prime()` return
Condition — the tied stat that comes LAST, not first. -/
theorem best_returns_last_tied_not_first :
    tieStats.best = some Stat.Condition
    ∧ tieStats.best ≠ some Stat.Strength
    ∧ tieStats.best_prime = some Stat.Condition
    ∧ tieStats.best_prime ≠ some Stat.Strength := by decide

/-- C3 (amended): `best()` / `best_prime()` are argmax by value, and ties
are broken by the LAST position in iteration order: appending a
tied-or-greater entry makes it the result, and any returned stat carries a
value dominating every entry. -/
theorem stats_best_argmax_ties_last :
    (∀ (l : List (Stat × Nat)) (k : Stat) (m : Nat),
        (∀ p ∈ l, p.2 ≤ m) → (Stats.mk (l ++ [(k, m)])).best = some k)
    ∧ (∀ (l : List (Stat × Nat)) (k : Stat) (m : Nat),
        (∀ p ∈ l, p.2 ≤ m) → k ∈ PRIME_STATS →
          (Stats.mk (l ++ [(k, m)])).best_prime = some k)
    ∧ (∀ (s : Stats) (k : Stat), s.best = some k →
        ∃ p, p ∈ s.values ∧ p.1 = k ∧ ∀ q ∈ s.values, q.2 ≤ p.2) := by
  refine ⟨?_, ?_, ?_⟩
  · intro l k m h
    unfold Stats.best
    rw [maxByKeyLast_append_big (fun p => p.2) l (k, m) h]
    rfl
  · intro l k m h hk
    unfold Stats.best_prime
    have hf : (l ++ [(k, m)]).filter (fun p => PRIME_STATS.contains p.1)
        = l.filter (fun p => PRIME_STATS.contains p.1) ++ [(k, m)] := by
      rw [List.filter_append]
      congr 1
      simp [List.filter, hk]
    rw [hf, maxByKeyLast_append_big (fun p => p.2) _ (k, m)
      (fun y hy => h y (List.mem_of_mem_filter hy))]
    rfl
  · intro s k hb
    unfold Stats.best at hb
    cases hv : s.values with
    | nil => rw [hv] at hb; simp [maxByKeyLast] at hb
    | cons y ys =>
        rw [hv] at hb
        simp only [maxByKeyLast, Option.map_some] at hb
        have hb2 : (ys.foldl (maxPick (fun p : Stat × Nat => p.2)) y).1 = k :=
          Option.some.inj hb
        refine ⟨ys.foldl (maxPick (fun p => p.2)) y, ?_, hb2, ?_⟩
        · exact maxFold_mem _ y ys
        · intro q hq
          exact maxFold_ge (fun p => p.2) y ys q hq

/-- Witness for C3's amended theorem: appending tied Condition after
Strength makes Condition the result. -/
theorem stats_best_argmax_ties_last_witness :
    (Stats.mk ([(Stat.Strength, 5)] ++ [(Stat.Condition, 5)])).best = some Stat.Condition :=
  stats_best_argmax_ties_last.1 [(Stat.Strength, 5)] Stat.Condition 5 (by decide)

/-- C4 (counterexample): a slightly positive gap (encounter level 20 versus
target level 17, gap 3) yields the "unreal" prefix — not the big/special
adjective ladder the claim describes for moderately/slightly positive
gaps. -/
theorem positive_gap_gets_unreal_not_big :
    ((monsterCore 20 (some (Monster.mk "goblin" 17 none))).run c4Rng).1.sevGap = 3
    ∧ (0 : Int) < 3 ∧ (3 : Int) ≤ 10
    ∧ ((monsterCore 20 (some (Monster.mk "goblin" 17 none))).run c4Rng).1.sevPhrase
        = "unreal goblin"
    ∧ ((monsterCore 20 (some (Monster.mk "goblin" 17 none))).run c4Rng).1.description
        = "Attacking an unreal goblin" := by
  rw [monsterCore_c4_eval]
  exact ⟨rfl, by norm_num, by norm_num, rfl, rfl⟩

/-- C4 (amended): in `Task::monster`'s severity phrasing, EVERY non-negative
gap — the moderately and slightly positive bands included — takes the
`>= -10` arm and produces the "unreal" prefix, consuming no randomness; the
big/special ladder arms are unreachable. -/
theorem severity_nonneg_gap_unreal (gap : Int) (result : String) (g : Rng) (h : 0 ≤ gap) :
    (severityPhrase gap result).run g = ("unreal " ++ result, g) := by
  unfold severityPhrase
  rw [if_neg (by omega), if_neg (by omega), if_neg (by omega), if_pos (by omega)]
  rfl

/-- Witness for C4's amended theorem at gap 3. -/
theorem severity_nonneg_gap_unreal_witness :
    (severityPhrase 3 "goblin").run zeroRng = ("unreal " ++ "goblin", zeroRng) :=
  severity_nonneg_gap_unreal 3 "goblin" zeroRng (by norm_num)

/-- C5 (counterexample): at encounter level 25 against a level-2 target
(gap 23 > 10), swarm scaling sets quantity 12 and per-unit level
`25 / 12 = 2`, so the task's total level is 24 — aggregate threat is NOT
exactly preserved. -/
theorem swarm_total_not_preserved :
    ((monsterCore 25 none).run c5Rng).1.encLevel = 25
    ∧ ((monsterCore 25 none).run c5Rng).1.taskLevel = 2
    ∧ (10 : Int) < 25 - 2
    ∧ ((monsterCore 25 none).run c5Rng).1.qty = 12
    ∧ ((monsterCore 25 none).run c5Rng).1.total = 24
    ∧ ((monsterCore 25 none).run c5Rng).1.total
        ≠ ((monsterCore 25 none).run c5Rng).1.encLevel := by
  rw [monsterCore_c5_eval]
  exact ⟨rfl, rfl, by norm_num, rfl, rfl, by norm_num⟩

/-- C5 (amended): whenever swarm scaling applies, the quantity is
`max(1, (level + draw) / max(target, 1))` with an in-range draw, the
per-unit level is `level / quantity` (truncated), and aggregate threat is
preserved only up to the integer-division remainder:
`total ≤ level < total + quantity`. -/
theorem swarm_scaling_amended (pl : Int) (qm : Option Monster) (g : Rng)
    (hsw : 10 < ((monsterCore pl qm).run g).1.encLevel
        - ((monsterCore pl qm).run g).1.taskLevel) :
    ((monsterCore pl qm).run g).1.qty
        = max ((((monsterCore pl qm).run g).1.encLevel
            + ((monsterCore pl qm).run g).1.swarmDraw).tdiv
              (max ((monsterCore pl qm).run g).1.taskLevel 1)) 1
    ∧ 0 ≤ ((monsterCore pl qm).run g).1.swarmDraw
    ∧ ((monsterCore pl qm).run g).1.swarmDraw
        < max ((monsterCore pl qm).run g).1.taskLevel 1
    ∧ ((monsterCore pl qm).run g).1.dividedLevel
        = ((monsterCore pl qm).run g).1.encLevel.tdiv ((monsterCore pl qm).run g).1.qty
    ∧ ((monsterCore pl qm).run g).1.total
        = ((monsterCore pl qm).run g).1.dividedLevel * ((monsterCore pl qm).run g).1.qty
    ∧ ((monsterCore pl qm).run g).1.total ≤ ((monsterCore pl qm).run g).1.encLevel
    ∧ ((monsterCore pl qm).run g).1.encLevel
        < ((monsterCore pl qm).run g).1.total + ((monsterCore pl qm).run g).1.qty := by
  obtain ⟨he, ht, hq, hsd, hdl, htot, hdur⟩ := monsterCore_fields pl qm g
  obtain ⟨i1, i2, i3, i4, i5, i6, i7⟩ := monsterNumbers_inv pl qm g
  rw [he, ht] at hsw
  obtain ⟨s1, s2, s3, s4, s5⟩ := i6 hsw
  rw [he, ht, hq, hsd, hdl, htot]
  exact ⟨s1, s2, s3, s4, rfl, i5, by omega⟩

/-- Witness for C5's amended theorem at the concrete swarm scenario. -/
theorem swarm_scaling_amended_witness :
    ((monsterCore 25 none).run c5Rng).1.qty
      = max ((((monsterCore 25 none).run c5Rng).1.encLevel
          + ((monsterCore 25 none).run c5Rng).1.swarmDraw).tdiv
            (max ((monsterCore 25 none).run c5Rng).1.taskLevel 1)) 1 :=
  (swarm_scaling_amended 25 none c5Rng (by rw [monsterCore_c5_eval]; decide)).1

/-- C6 (counterexample): at player level 6001 (≥ 1) there is a generator
state — the all-zeros tape, which walks the encounter level down to the
clamp — on which `Task::monster`'s duration truncates to 0 ms, refuting
"duration > 0 for every player_level ≥ 1 and every PRNG state". -/
theorem monster_duration_zero_at_6001 :
    (1 : Int) ≤ 6001
    ∧ ((monsterCore 6001 none).run zeroRng).1.durationMs = 0 := by
  refine ⟨by norm_num, ?_⟩
  unfold monsterCore
  rw [StateT.run_bind, monsterNumbers_6001]
  rfl

/-- C6 (amended): for every player level in `[1, 6000]`, every optional
quest monster and every generator state, the synthesized duration
`(2·3·total·1000)/player_level` ms is strictly positive (the total level is
at least 1, so the numerator is at least 6000 ≥ player_level). -/
theorem monster_duration_positive (pl : Int) (qm : Option Monster) (g : Rng)
    (h1 : 1 ≤ pl) (h2 : pl ≤ 6000) :
    0 < ((monsterCore pl qm).run g).1.durationMs := by
  obtain ⟨henc1, henc2, hq, htot1, htot2, _, _⟩ := monsterNumbers_inv pl qm g
  obtain ⟨_, _, _, _, _, _, hdur⟩ := monsterCore_fields pl qm g
  rw [hdur]
  set T := ((monsterNumbers pl qm).run g).1.dividedLevel
      * ((monsterNumbers pl qm).run g).1.qty with hT
  have hTle : T ≤ 12000 := by
    have : pl.toNat ≤ 6000 := by omega
    omega
  have hX1 : (6000 : Int) ≤ 2 * 3 * T * 1000 := by nlinarith
  have hX2 : 2 * 3 * T * 1000 ≤ 72000000 := by nlinarith
  have htd : (2 * 3 * T * 1000).tdiv pl = (2 * 3 * T * 1000) / pl :=
    Int.tdiv_eq_ediv (by omega) (by omega)
  rw [htd]
  have hge1 : (1 : Int) ≤ 2 * 3 * T * 1000 / pl := by
    rw [Int.le_ediv_iff_mul_le (by omega : (0 : Int) < pl)]
    omega
  have hleX : 2 * 3 * T * 1000 / pl ≤ 2 * 3 * T * 1000 :=
    Int.ediv_le_self _ (by omega)
  unfold asU64 asUsize
  have hmod : (2 * 3 * T * 1000 / pl) % 18446744073709551616 = 2 * 3 * T * 1000 / pl :=
    Int.emod_eq_of_lt (by omega) (by omega)
  rw [hmod]
  omega

/-- Witness for C6's amended theorem at player level 3 on the all-zeros
tape. -/
theorem monster_duration_positive_witness :
    0 < ((monsterCore 3 none).run zeroRng).1.durationMs :=
  monster_duration_positive 3 none zeroRng (by norm_num) (by norm_num)

/-- C7: determinism — two simulations from identical Player snapshots,
driven by identical delta sequences and generators with the same seed,
produce identical Player snapshots after every corresponding tick. -/
theorem simulation_deterministic (p₁ p₂ : Player) (seed : Nat) (ds₁ ds₂ : List ℚ)
    (hp : p₁ = p₂) (hd : ds₁ = ds₂) :
    Simulation.tickTrace p₁ (Rand.seed seed) ds₁
      = Simulation.tickTrace p₂ (Rand.seed seed) ds₂ := by
  subst hp
  subst hd
  rfl

/-- Witness for C7: the two runs over seed 7 and deltas `[1, 2, 3]`
coincide. -/
theorem simulation_deterministic_witness :
    Simulation.tickTrace demoPlayer (Rand.seed 7) [1, 2, 3]
      = Simulation.tickTrace demoPlayer (Rand.seed 7) [1, 2, 3] :=
  simulation_deterministic demoPlayer demoPlayer 7 [1, 2, 3] [1, 2, 3] rfl rfl

set_option maxRecDepth 40000 in
/-- C8: the quest book never holds more than 100 quests after `add_quest`
(eviction precedes the append); `current_quest` is the last entry;
`completed_quests` yields exactly every entry except the last; and 105
`add_quest` calls from a fresh book leave the 100 newest captions — the 5
oldest evicted. -/
theorem questbook_bound_current_completed :
    (∀ (qb : QuestBook) (q : String),
        ((qb.add_quest q).quests.length ≤ 100))
    ∧ (∀ qb : QuestBook, QuestBook.current_quest qb = qb.quests.getLast?)
    ∧ (∀ qb : QuestBook, QuestBook.completed_quests qb = qb.quests.dropLast)
    ∧ (((List.range 105).foldl (fun qb i => qb.add_quest (toString i))
          QuestBook.new).quests
        = ((List.range 105).drop 5).map toString) := by
  refine ⟨?_, ?_, ?_, ?_⟩
  · intro qb q
    unfold QuestBook.add_quest
    simp only [List.length_append, List.length_singleton]
    have := evict_length_le qb.quests
    omega
  · intro qb; rfl
  · intro qb
    unfold QuestBook.completed_quests
    rw [List.dropLast_eq_take]
  · decide

/-- C9: the first tick over a fresh Player (no active task) installs the
"Loading" task with a 2-second meter, seeds the queue with exactly the 4
flavor tasks plus a terminal "Loading Act I" plot task (5 entries), resets
the plot meter to max 28, and does nothing else: elapsed advances by `dt`
and every other ledger (experience bar, inventory, level) and the generator
are untouched. -/
theorem first_tick_bootstrap (nm : String) (race : Race) (cls : CClass) (stats : Stats)
    (dt : ℚ) (g : Rng) :
    ((Simulation.tick dt (Player.new nm race cls stats)).run g).1.task
        = some (GTask.regular "Loading" 2000)
    ∧ ((Simulation.tick dt (Player.new nm race cls stats)).run g).1.task_bar = Bar.mk 0 2
    ∧ ((Simulation.tick dt (Player.new nm race cls stats)).run g).1.queue
        = Simulation.FLAVOR_TASKS.map (fun (x : String × Nat) => GTask.regular x.1 x.2)
          ++ [GTask.plot ("Loading " ++ act_name 1) 2000]
    ∧ ((Simulation.tick dt (Player.new nm race cls stats)).run g).1.queue.length = 5
    ∧ ("Loading " ++ act_name 1) = "Loading Act I"
    ∧ ((Simulation.tick dt (Player.new nm race cls stats)).run g).1.quest_book.plot
        = Bar.mk 0 28
    ∧ ((Simulation.tick dt (Player.new nm race cls stats)).run g).1.elapsed = dt
    ∧ ((Simulation.tick dt (Player.new nm race cls stats)).run g).1.exp_bar
        = (Player.new nm race cls stats).exp_bar
    ∧ ((Simulation.tick dt (Player.new nm race cls stats)).run g).1.inventory
        = (Player.new nm race cls stats).inventory
    ∧ ((Simulation.tick dt (Player.new nm race cls stats)).run g).1.level = 1
    ∧ ((Simulation.tick dt (Player.new nm race cls stats)).run g).2 = g := by
  refine ⟨rfl, ?_, rfl, rfl, by decide, rfl, ?_, rfl, rfl, rfl, rfl⟩
  · show Bar.mk 0 ((2000 : ℚ) / 1000) = Bar.mk 0 2
    norm_num
  · show 0 + dt = dt
    exact zero_add dt
